import Mathlib

/-! The pipeline trigger workflow of `pkg/worker/workflow.go`.

A shallow embedding of `GetBlob`, `SetBlob`, `ConnectorActivity` and
`TriggerAsyncPipelineWorkflow`.

Modelling decisions:

* JSON documents (`structpb.Struct`, `structpb.Value`, `interface{}` after
  `json.Unmarshal`) are the trees of `Value`; numbers are integer payloads that
  the workflow only carries around.  A Go map is an association list read with
  `mapGet` and written with `mapSet`.
* The bytes kept in Redis are a `Blob`: either the JSON text of a value or bytes
  that are not JSON.  `protojson.Unmarshal` into a `structpb.Struct` accepts
  exactly the JSON text of an object.
* Redis is an association list with a per-key predicate `rejects` for writes the
  backend refuses.  Expiry (the TTL) is not modelled.
* Effects are explicit: the `World` holds the store, the supply of UUIDs, the
  log of `Set` commands, the activity invocations and the usage data points.
* Go panics are an `Outcome` of their own; deferred calls run on every exit.
* The durable runtime runs an activity to its final attempt; the connector RPC
  of `Env` gives the result of that attempt.
* `utils.GenerateDAG`, `TopoloicalSort`, `utils.RenderInput` and the connector
  service live outside these sources and are the fields of `Env`.
-/

namespace Worker

/-! ## JSON values -/

/-- A JSON value (`structpb.Value`, or `interface{}` after `json.Unmarshal`). -/
inductive Value where
  | null
  | bool (b : Bool)
  | num (n : Int)
  | str (s : String)
  | list (items : List Value)
  | struct (fields : List (String × Value))

/-- A JSON object: `structpb.Struct`, `map[string]interface{}`. -/
abbrev Struct := List (String × Value)

namespace Value

mutual
/-- Decidable equality of JSON values. -/
def decEq : (a b : Value) → Decidable (a = b)
  | .null, .null => isTrue rfl
  | .bool a, .bool b =>
    if h : a = b then isTrue (by rw [h]) else isFalse (by intro e; cases e; exact h rfl)
  | .num a, .num b =>
    if h : a = b then isTrue (by rw [h]) else isFalse (by intro e; cases e; exact h rfl)
  | .str a, .str b =>
    if h : a = b then isTrue (by rw [h]) else isFalse (by intro e; cases e; exact h rfl)
  | .list a, .list b =>
    match decEqList a b with
    | isTrue h => isTrue (by rw [h])
    | isFalse h => isFalse (by intro e; cases e; exact h rfl)
  | .struct a, .struct b =>
    match decEqFields a b with
    | isTrue h => isTrue (by rw [h])
    | isFalse h => isFalse (by intro e; cases e; exact h rfl)
  | .null, .bool _ => isFalse (by intro e; cases e)
  | .null, .num _ => isFalse (by intro e; cases e)
  | .null, .str _ => isFalse (by intro e; cases e)
  | .null, .list _ => isFalse (by intro e; cases e)
  | .null, .struct _ => isFalse (by intro e; cases e)
  | .bool _, .null => isFalse (by intro e; cases e)
  | .bool _, .num _ => isFalse (by intro e; cases e)
  | .bool _, .str _ => isFalse (by intro e; cases e)
  | .bool _, .list _ => isFalse (by intro e; cases e)
  | .bool _, .struct _ => isFalse (by intro e; cases e)
  | .num _, .null => isFalse (by intro e; cases e)
  | .num _, .bool _ => isFalse (by intro e; cases e)
  | .num _, .str _ => isFalse (by intro e; cases e)
  | .num _, .list _ => isFalse (by intro e; cases e)
  | .num _, .struct _ => isFalse (by intro e; cases e)
  | .str _, .null => isFalse (by intro e; cases e)
  | .str _, .bool _ => isFalse (by intro e; cases e)
  | .str _, .num _ => isFalse (by intro e; cases e)
  | .str _, .list _ => isFalse (by intro e; cases e)
  | .str _, .struct _ => isFalse (by intro e; cases e)
  | .list _, .null => isFalse (by intro e; cases e)
  | .list _, .bool _ => isFalse (by intro e; cases e)
  | .list _, .num _ => isFalse (by intro e; cases e)
  | .list _, .str _ => isFalse (by intro e; cases e)
  | .list _, .struct _ => isFalse (by intro e; cases e)
  | .struct _, .null => isFalse (by intro e; cases e)
  | .struct _, .bool _ => isFalse (by intro e; cases e)
  | .struct _, .num _ => isFalse (by intro e; cases e)
  | .struct _, .str _ => isFalse (by intro e; cases e)
  | .struct _, .list _ => isFalse (by intro e; cases e)
/-- Decidable equality of JSON arrays. -/
def decEqList : (a b : List Value) → Decidable (a = b)
  | [], [] => isTrue rfl
  | [], _ :: _ => isFalse (by intro e; cases e)
  | _ :: _, [] => isFalse (by intro e; cases e)
  | x :: xs, y :: ys =>
    match decEq x y, decEqList xs ys with
    | isTrue h, isTrue h2 => isTrue (by rw [h, h2])
    | isFalse h, _ => isFalse (by intro e; cases e; exact h rfl)
    | _, isFalse h => isFalse (by intro e; cases e; exact h rfl)
/-- Decidable equality of JSON objects. -/
def decEqFields : (a b : List (String × Value)) → Decidable (a = b)
  | [], [] => isTrue rfl
  | [], _ :: _ => isFalse (by intro e; cases e)
  | _ :: _, [] => isFalse (by intro e; cases e)
  | (k, x) :: xs, (l, y) :: ys =>
    if hk : k = l then
      match decEq x y, decEqFields xs ys with
      | isTrue h, isTrue h2 => isTrue (by rw [hk, h, h2])
      | isFalse h, _ => isFalse (by intro e; cases e; exact h rfl)
      | _, isFalse h => isFalse (by intro e; cases e; exact h rfl)
    else isFalse (by intro e; cases e; exact hk rfl)
end

instance : DecidableEq Value := decEq

end Value

/-! ## Go maps -/

/-- The map read `m[k]`; `none` when the key is absent. -/
def mapGet {β : Type} : List (String × β) → String → Option β
  | [], _ => none
  | (k', v) :: rest, k => if k' = k then some v else mapGet rest k

/-- The map without the key `k`. -/
def mapDel {β : Type} : List (String × β) → String → List (String × β)
  | [], _ => []
  | (k', v) :: rest, k => if k' = k then mapDel rest k else (k', v) :: mapDel rest k

/-- The map assignment `m[k] = v`. -/
def mapSet {β : Type} (m : List (String × β)) (k : String) (v : β) : List (String × β) :=
  (k, v) :: mapDel m k

/-! ## Errors, bytes and the JSON codecs -/

/-- The errors the workflow can see. -/
inductive Error where
  | redisNil (key : String)
  | syntaxError (detail : String)
  | marshalError (detail : String)
  | invalidRecipe (detail : String)
  | renderError (detail : String)
  | connectorError (detail : String)
  deriving DecidableEq, Repr

/-- Bytes held in Redis: the JSON text of a value, or bytes that are not JSON. -/
inductive Blob where
  | json (v : Value)
  | raw (bytes : String)
  deriving DecidableEq

/-- Decidable equality of the results of fallible calls. -/
instance instDecidableEqExcept {ε α : Type} [DecidableEq ε] [DecidableEq α] :
    DecidableEq (Except ε α)
  | .ok a, .ok b =>
    if h : a = b then isTrue (by rw [h]) else isFalse (by intro e; cases e; exact h rfl)
  | .error a, .error b =>
    if h : a = b then isTrue (by rw [h]) else isFalse (by intro e; cases e; exact h rfl)
  | .ok _, .error _ => isFalse (by intro e; cases e)
  | .error _, .ok _ => isFalse (by intro e; cases e)

/-- Encoding of a struct by `protojson.Marshal`; it succeeds on every value of the model. -/
def protojsonMarshal (m : Struct) : Except Error Blob :=
  .ok (.json (.struct m))

/-- Decoding by `protojson.Unmarshal` into a `structpb.Struct`: the text must be a JSON object. -/
def protojsonUnmarshal : Blob → Except Error Struct
  | .json (.struct m) => .ok m
  | .json _ => .error (.syntaxError "unexpected token")
  | .raw _ => .error (.syntaxError "invalid JSON")

/-- Encoding by `json.Marshal` of an `interface{}`. -/
def jsonMarshal (v : Value) : Except Error Blob :=
  .ok (.json v)

/-- Decoding by `json.Unmarshal` into an `interface{}`. -/
def jsonUnmarshal : Blob → Except Error Value
  | .json v => .ok v
  | .raw _ => .error (.syntaxError "invalid JSON")

/-- Decoding by `json.Unmarshal` into a `map[string]interface{}`; `null` leaves the map nil,
which reads as the empty map. -/
def jsonUnmarshalMap : Blob → Except Error Struct
  | .json (.struct m) => .ok m
  | .json .null => .ok []
  | .json _ => .error (.syntaxError "cannot unmarshal into Go value of type map[string]interface {}")
  | .raw _ => .error (.syntaxError "invalid JSON")

/-! ## Redis -/

/-- The backing store: its content and the keys whose writes the backend refuses. -/
structure Redis where
  data : List (String × Blob)
  rejects : String → Bool

/-- The command `Get key`, with `.Bytes()`. -/
def Redis.Get (r : Redis) (key : String) : Except Error Blob :=
  match mapGet r.data key with
  | none => .error (.redisNil key)
  | some b => .ok b

/-- The command `Set key value ttl`: its status and the store after it. -/
def Redis.Set (r : Redis) (key : String) (value : Blob) : Bool × Redis :=
  if r.rejects key then (false, r) else (true, { r with data := mapSet r.data key value })

/-- The command `Del key`. -/
def Redis.Del (r : Redis) (key : String) : Redis :=
  { r with data := mapDel r.data key }

/-! ## Requests and records -/

/-- A component of the recipe (`datamodel.Component`). -/
structure Component where
  id : String
  definitionName : String
  resourceName : String
  configuration : Struct
  deriving DecidableEq

/-- The pipeline of a trigger (`datamodel.Pipeline`). -/
structure Pipeline where
  id : String
  uid : String
  owner : String
  components : List Component
  deriving DecidableEq

structure TriggerAsyncPipelineWorkflowRequest where
  pipelineInputBlobRedisKeys : List String
  pipeline : Pipeline
  deriving DecidableEq

structure PipelineMetadataStruct where
  id : String
  uid : String
  owner : String
  triggerId : String
  deriving DecidableEq

structure ExecuteConnectorActivityRequest where
  inputBlobRedisKeys : List String
  name : String
  ownerPermalink : String
  pipelineMetadata : PipelineMetadataStruct
  deriving DecidableEq

structure ExecuteConnectorActivityResponse where
  outputBlobRedisKeys : List String
  deriving DecidableEq

/-- The status of a usage data point (`mgmtPB.Status`). -/
inductive Status where
  | unspecified
  | completed
  | errored
  deriving DecidableEq, Repr

/-- The usage data point (`utils.UsageMetricData`), without its clock readings. -/
structure UsageMetricData where
  ownerUID : String
  pipelineID : String
  pipelineUID : String
  pipelineTriggerUID : String
  status : Status
  deriving DecidableEq

/-! ## The world of a run -/

/-- Everything outside the workflow function that a run reads or changes. -/
structure World where
  redis : Redis
  uuids : List String
  sets : List (String × Blob)
  calls : List ExecuteConnectorActivityRequest
  dataPoints : List UsageMetricData

/-- The call `w.redisClient.Set(ctx, key, value, ttl)`; the caller drops the status. -/
def World.redisSet (w : World) (key : String) (value : Blob) : World :=
  { w with redis := (w.redis.Set key value).2, sets := w.sets ++ [(key, value)] }

/-- The call `w.redisClient.Del(ctx, key)`. -/
def World.redisDel (w : World) (key : String) : World :=
  { w with redis := w.redis.Del key }

/-- The call `w.writeNewDataPoint(sCtx, dataPoint)`. -/
def World.writeNewDataPoint (w : World) (dataPoint : UsageMetricData) : World :=
  { w with dataPoints := w.dataPoints ++ [dataPoint] }

/-- The nil UUID, which `uuid.NewV4` leaves in `id` when it fails. -/
def nilUUID : String := "00000000-0000-0000-0000-000000000000"

/-- The statement `id, _ := uuid.NewV4()`: the next UUID of the supply. -/
def World.newV4 (w : World) : String × World :=
  match w.uuids with
  | [] => (nilUUID, w)
  | u :: rest => (u, { w with uuids := rest })

/-- The collaborators that live outside these sources. -/
structure Env where
  Dag : Type
  GenerateDAG : List Component → Except Error Dag
  TopoloicalSort : Dag → Except Error (List Component)
  RenderInput : Value → Struct → Except Error Value
  ExecuteConnectorResource :
    PipelineMetadataStruct → String → String → List Struct → Except Error (List Struct)
  workflowID : String

/-! ## The blob store -/

/-- The key `fmt.Sprintf("async_connector_blob:%s:%d", id, idx)`. -/
def connectorBlobKey (id : String) (idx : Nat) : String :=
  "async_connector_blob:" ++ id ++ ":" ++ toString idx

/-- The key `fmt.Sprintf("async_pipeline_response:%s:%d", workflowID, idx)`. -/
def pipelineResponseKey (workflowID : String) (idx : Nat) : String :=
  "async_pipeline_response:" ++ workflowID ++ ":" ++ toString idx

/-- The function `GetBlob`: one Redis read and one decoding per key, in order; the first
failure ends the call. -/
def GetBlob (r : Redis) : List String → Except Error (List Struct)
  | [] => .ok []
  | key :: rest =>
    match r.Get key with
    | .error err => .error err
    | .ok blob =>
      match protojsonUnmarshal blob with
      | .error err => .error err
      | .ok payload =>
        match GetBlob r rest with
        | .error err => .error err
        | .ok payloads => .ok (payload :: payloads)

/-- The loop of `SetBlob` from index `idx` on. -/
def setBlobLoop (id : String) :
    List Struct → Nat → List String → World → Except Error (List String) × World
  | [], _, blobRedisKeys, w => (.ok blobRedisKeys, w)
  | input :: rest, idx, blobRedisKeys, w =>
    match protojsonMarshal input with
    | .error err => (.error err, w)
    | .ok inputJson =>
      let blobRedisKey := connectorBlobKey id idx
      setBlobLoop id rest (idx + 1) (blobRedisKeys ++ [blobRedisKey])
        (w.redisSet blobRedisKey inputJson)

/-- The function `SetBlob`. -/
def SetBlob (w : World) (inputs : List Struct) : Except Error (List String) × World :=
  let (id, w1) := w.newV4
  setBlobLoop id inputs 0 [] w1

/-! ## The connector activity -/

/-- The function `ConnectorActivity`. -/
def ConnectorActivity (env : Env) (w : World) (param : ExecuteConnectorActivityRequest) :
    Except Error ExecuteConnectorActivityResponse × World :=
  match GetBlob w.redis param.inputBlobRedisKeys with
  | .error err => (.error err, w)
  | .ok inputs =>
    match env.ExecuteConnectorResource param.pipelineMetadata param.ownerPermalink
        param.name inputs with
    | .error err => (.error err, w)
    | .ok outputs =>
      match SetBlob w outputs with
      | (.error err, w1) => (.error err, w1)
      | (.ok outputBlobRedisKeys, w1) => (.ok ⟨outputBlobRedisKeys⟩, w1)

/-- The call `workflow.ExecuteActivity(ctx, w.ConnectorActivity, req).Get(ctx, &result)`. -/
def ExecuteActivity (env : Env) (w : World) (req : ExecuteConnectorActivityRequest) :
    Except Error ExecuteConnectorActivityResponse × World :=
  ConnectorActivity env { w with calls := w.calls ++ [req] } req

/-! ## The trigger workflow -/

/-- How a call of the workflow function ends. -/
inductive Outcome where
  | returned (err : Option Error)
  | panicked (reason : String)
  deriving DecidableEq

/-- Why a loop of the workflow stops early. -/
inductive Fault where
  | err (e : Error)
  | panic (reason : String)
  deriving DecidableEq

/-- The local variables of the workflow function that outlive a loop iteration, with the
world: `result` is the variable declared before the loops, `deferred` the stack of keys whose
`Del` is deferred (latest first). -/
structure Frame where
  world : World
  cache : List Struct
  responseCompId : String
  result : ExecuteConnectorActivityResponse
  deferred : List String

/-- The definition name of the end operator. -/
def endOperator : String := "operator-definitions/end-operator"

/-- The function `strings.Split(s, "/")` on the characters of `s`. -/
def splitSlash : List Char → List Char → List String
  | [], cur => [String.mk cur.reverse]
  | c :: cs, cur =>
    if c = '/' then String.mk cur.reverse :: splitSlash cs [] else splitSlash cs (c :: cur)

/-- The error exit taken at most failure sites: the data point is marked ERRORED and written,
and the error is returned. -/
def errored (dataPoint : UsageMetricData) (err : Error) (f : Frame) : Outcome × Frame :=
  (.returned (some err),
    { f with world := f.world.writeNewDataPoint { dataPoint with status := .errored } })

/-- The first loop over the pipeline inputs: each is wrapped as `{"body": input}` and encoded. -/
def wrapInputs : List Struct → Except Error (List Blob)
  | [] => .ok []
  | pipelineInput :: rest =>
    match protojsonMarshal [("body", .struct pipelineInput)] with
    | .error err => .error err
    | .ok input =>
      match wrapInputs rest with
      | .error err => .error err
      | .ok inputs => .ok (input :: inputs)

/-- The loop that seeds the cache: item `idx` gets the decoded input under the id of
`orderedComp[0]`; indexing an empty order panics. -/
def seedCache (orderedComp : List Component) : List Blob → Except Fault (List Struct)
  | [] => .ok []
  | input :: rest =>
    match jsonUnmarshalMap input with
    | .error err => .error (.err err)
    | .ok inputStruct =>
      match orderedComp with
      | [] => .error (.panic "index out of range [0] with length 0")
      | first :: _ =>
        match seedCache orderedComp rest with
        | .error flt => .error flt
        | .ok cache => .ok (mapSet [] first.id (.struct inputStruct) :: cache)

/-- The body of the rendering loop for item `idx`: the configuration goes through
`protojson.Marshal` and `json.Unmarshal`, is rendered against `cache[idx]`, and the result
goes through `json.Marshal` and `protojson.Unmarshal`. -/
def renderItem (env : Env) (comp : Component) (cache : List Struct) (idx : Nat) :
    Except Fault Struct :=
  match protojsonMarshal comp.configuration with
  | .error err => .error (.err err)
  | .ok compInputTemplateJson =>
    match jsonUnmarshal compInputTemplateJson with
    | .error err => .error (.err err)
    | .ok compInputTemplateStruct =>
      match cache[idx]? with
      | none => .error (.panic "index out of range")
      | some item =>
        match env.RenderInput compInputTemplateStruct item with
        | .error err => .error (.err err)
        | .ok compInputStruct =>
          match jsonMarshal compInputStruct with
          | .error err => .error (.err err)
          | .ok compInputJson =>
            match protojsonUnmarshal compInputJson with
            | .error err => .error (.err err)
            | .ok compInput => .ok compInput

/-- The loop `for idx := 0; idx < batchSize; idx++` that renders the inputs of a component,
from index `idx` with `remaining` iterations to go. -/
def renderLoop (env : Env) (comp : Component) (cache : List Struct) :
    Nat → Nat → List Struct → Except Fault (List Struct)
  | _, 0, compInputs => .ok compInputs
  | idx, remaining + 1, compInputs =>
    match renderItem env comp cache idx with
    | .error flt => .error flt
    | .ok compInput => renderLoop env comp cache (idx + 1) remaining (compInputs ++ [compInput])

/-- The loop `for idx := range result.OutputBlobRedisKeys` over the variable `result`
declared before the loops, which defers `Del(inputBlobRedisKeys[idx])`. -/
def deferInputDels (inputBlobRedisKeys : List String) :
    List String → Nat → List String → Except Fault (List String)
  | [], _, deferred => .ok deferred
  | _ :: rest, idx, deferred =>
    match inputBlobRedisKeys[idx]? with
    | none => .error (.panic "index out of range")
    | some key => deferInputDels inputBlobRedisKeys rest (idx + 1) (key :: deferred)

/-- The loop `for idx := range records` with body `cache[idx][compId] = record` after a
round trip through `protojson.Marshal` and `json.Unmarshal`; the workflow runs it over the
outputs of an activity and over the rendered inputs of the end operator. -/
def storeRecords (compId : String) : List Struct → Nat → List Struct → Except Fault (List Struct)
  | [], _, cache => .ok cache
  | record :: rest, idx, cache =>
    match protojsonMarshal record with
    | .error err => .error (.err err)
    | .ok outputJson =>
      match jsonUnmarshalMap outputJson with
      | .error err => .error (.err err)
      | .ok outputStruct =>
        match cache[idx]? with
        | none => .error (.panic "index out of range")
        | some item =>
          storeRecords compId rest (idx + 1)
            (cache.set idx (mapSet item compId (.struct outputStruct)))

/-- The request literal `&ExecuteConnectorActivityRequest{...}` passed to the activity. -/
def activityRequest (env : Env) (param : TriggerAsyncPipelineWorkflowRequest)
    (comp : Component) (inputBlobRedisKeys : List String) : ExecuteConnectorActivityRequest :=
  { inputBlobRedisKeys := inputBlobRedisKeys
    name := comp.resourceName
    ownerPermalink := param.pipeline.owner
    pipelineMetadata :=
      { id := param.pipeline.id
        uid := param.pipeline.uid
        owner := param.pipeline.owner
        triggerId := env.workflowID } }

/-- The block `if comp.ResourceName != ""` of the component loop. -/
def connectorBlock (env : Env) (param : TriggerAsyncPipelineWorkflowRequest)
    (dataPoint : UsageMetricData) (comp : Component) (compInputs : List Struct) (f : Frame) :
    Except (Outcome × Frame) Frame :=
  if comp.resourceName ≠ "" then
    match SetBlob f.world compInputs with
    | (.error err, w1) => .error (errored dataPoint err { f with world := w1 })
    | (.ok inputBlobRedisKeys, w1) =>
      match deferInputDels inputBlobRedisKeys f.result.outputBlobRedisKeys 0 f.deferred with
      | .error (.err err) => .error (.returned (some err), { f with world := w1 })
      | .error (.panic reason) => .error (.panicked reason, { f with world := w1 })
      | .ok deferred1 =>
        match ExecuteActivity env w1 (activityRequest env param comp inputBlobRedisKeys) with
        | (.error err, w2) =>
          .error (errored dataPoint err { f with world := w2, deferred := deferred1 })
        | (.ok result, w2) =>
          let outputs := GetBlob w2.redis result.outputBlobRedisKeys
          let deferred2 := result.outputBlobRedisKeys.reverse ++ deferred1
          match outputs with
          | .error err =>
            .error (errored dataPoint err { f with world := w2, deferred := deferred2 })
          | .ok outputs =>
            match storeRecords comp.id outputs 0 f.cache with
            | .error (.err err) =>
              .error (.returned (some err), { f with world := w2, deferred := deferred2 })
            | .error (.panic reason) =>
              .error (.panicked reason, { f with world := w2, deferred := deferred2 })
            | .ok cache => .ok { f with world := w2, deferred := deferred2, cache := cache }
  else .ok f

/-- The block `if comp.DefinitionName == "operator-definitions/end-operator"` of the
component loop. -/
def endBlock (comp : Component) (compInputs : List Struct) (f : Frame) :
    Except (Outcome × Frame) Frame :=
  if comp.definitionName = endOperator then
    let f1 := { f with responseCompId := comp.id }
    match storeRecords comp.id compInputs 0 f1.cache with
    | .error (.err err) => .error (.returned (some err), f1)
    | .error (.panic reason) => .error (.panicked reason, f1)
    | .ok cache => .ok { f1 with cache := cache }
  else .ok f

/-- One iteration of the loop `for _, comp := range orderedComp[1:]`. -/
def componentStep (env : Env) (param : TriggerAsyncPipelineWorkflowRequest)
    (dataPoint : UsageMetricData) (batchSize : Nat) (comp : Component) (f : Frame) :
    Except (Outcome × Frame) Frame :=
  match renderLoop env comp f.cache 0 batchSize [] with
  | .error (.err err) => .error (errored dataPoint err f)
  | .error (.panic reason) => .error (.panicked reason, f)
  | .ok compInputs =>
    match connectorBlock env param dataPoint comp compInputs f with
    | .error stop => .error stop
    | .ok f1 => endBlock comp compInputs f1

/-- The loop `for _, comp := range orderedComp[1:]`. -/
def runComponents (env : Env) (param : TriggerAsyncPipelineWorkflowRequest)
    (dataPoint : UsageMetricData) (batchSize : Nat) :
    List Component → Frame → Except (Outcome × Frame) Frame
  | [], f => .ok f
  | comp :: rest, f =>
    match componentStep env param dataPoint batchSize comp f with
    | .error stop => .error stop
    | .ok f1 => runComponents env param dataPoint batchSize rest f1

/-- The body of the loop that builds the pipeline outputs, for item `idx`: the field `body`
of `cache[idx][responseCompId].(map[string]interface{})` goes through `json.Marshal` and
`protojson.Unmarshal`. -/
def outputItem (cache : List Struct) (responseCompId : String) (idx : Nat) :
    Except Fault Struct :=
  match cache[idx]? with
  | none => .error (.panic "index out of range")
  | some item =>
    match mapGet item responseCompId with
    | some (.struct entry) =>
      match jsonMarshal ((mapGet entry "body").getD .null) with
      | .error err => .error (.err err)
      | .ok pipelineOutputJson =>
        match protojsonUnmarshal pipelineOutputJson with
        | .error err => .error (.err err)
        | .ok pipelineOutput => .ok pipelineOutput
    | _ => .error (.panic "interface conversion: not map[string]interface {}")

/-- The loop `for idx := 0; idx < batchSize; idx++` that builds the pipeline outputs, from
index `idx` with `remaining` iterations to go. -/
def outputLoop (cache : List Struct) (responseCompId : String) :
    Nat → Nat → List Struct → Except Fault (List Struct)
  | _, 0, pipelineOutputs => .ok pipelineOutputs
  | idx, remaining + 1, pipelineOutputs =>
    match outputItem cache responseCompId idx with
    | .error flt => .error flt
    | .ok pipelineOutput =>
      outputLoop cache responseCompId (idx + 1) remaining (pipelineOutputs ++ [pipelineOutput])

/-- The pipeline outputs: empty records when no response component was recorded. -/
def buildOutputs (batchSize : Nat) (cache : List Struct) (responseCompId : String) :
    Except Fault (List Struct) :=
  if responseCompId = "" then .ok (List.replicate batchSize [])
  else outputLoop cache responseCompId 0 batchSize []

/-- The loop that writes the pipeline outputs under the response keys. -/
def writeOutputs (workflowID : String) :
    List Struct → Nat → World → Except Error Unit × World
  | [], _, w => (.ok (), w)
  | pipelineOutput :: rest, idx, w =>
    match protojsonMarshal pipelineOutput with
    | .error err => (.error err, w)
    | .ok outputJson =>
      writeOutputs workflowID rest (idx + 1) (w.redisSet (pipelineResponseKey workflowID idx)
        outputJson)

/-- The workflow from the construction of the pipeline outputs to its return. -/
def finish (env : Env) (dataPoint : UsageMetricData) (batchSize : Nat) (f : Frame) :
    Outcome × Frame :=
  match buildOutputs batchSize f.cache f.responseCompId with
  | .error (.err err) => (.returned (some err), f)
  | .error (.panic reason) => (.panicked reason, f)
  | .ok pipelineOutputs =>
    match writeOutputs env.workflowID pipelineOutputs 0 f.world with
    | (.error err, w1) => errored dataPoint err { f with world := w1 }
    | (.ok _, w1) =>
      (.returned none,
        { f with world := w1.writeNewDataPoint { dataPoint with status := .completed } })

/-- The workflow from its start to the end of the component loop: the data point under
construction, the batch size and the frame when the loop completes, and the exit otherwise. -/
def runToOutputs (env : Env) (param : TriggerAsyncPipelineWorkflowRequest) (w : World) :
    Except (Outcome × Frame) (UsageMetricData × Nat × Frame) :=
  let f0 : Frame :=
    { world := w, cache := [], responseCompId := "", result := ⟨[]⟩, deferred := [] }
  match (splitSlash param.pipeline.owner.data [])[1]? with
  | none => .error (.panicked "index out of range [1] with length 1", f0)
  | some ownerUID =>
    let dataPoint : UsageMetricData :=
      { ownerUID := ownerUID
        pipelineID := param.pipeline.id
        pipelineUID := param.pipeline.uid
        pipelineTriggerUID := env.workflowID
        status := .unspecified }
    match env.GenerateDAG param.pipeline.components with
    | .error err => .error (errored dataPoint err f0)
    | .ok dag =>
      match env.TopoloicalSort dag with
      | .error err => .error (errored dataPoint err f0)
      | .ok orderedComp =>
        match GetBlob w.redis param.pipelineInputBlobRedisKeys with
        | .error err => .error (errored dataPoint err f0)
        | .ok pipelineInputs =>
          let batchSize := pipelineInputs.length
          match wrapInputs pipelineInputs with
          | .error err => .error (errored dataPoint err f0)
          | .ok inputs =>
            match seedCache orderedComp inputs with
            | .error (.err err) => .error (errored dataPoint err f0)
            | .error (.panic reason) => .error (.panicked reason, f0)
            | .ok cache =>
              match orderedComp with
              | [] => .error (.panicked "slice bounds out of range [1:0]", f0)
              | _ :: rest =>
                match runComponents env param dataPoint batchSize rest
                    { f0 with cache := cache } with
                | .error stop => .error stop
                | .ok f => .ok (dataPoint, batchSize, f)

/-- The deferred `Del` calls, run when the workflow function exits. -/
def runDeferred : List String → World → World
  | [], w => w
  | key :: rest, w => runDeferred rest (w.redisDel key)

/-- The function `TriggerAsyncPipelineWorkflow`: how the call ends and the world after it. -/
def TriggerAsyncPipelineWorkflow (env : Env) (param : TriggerAsyncPipelineWorkflowRequest)
    (w : World) : Outcome × World :=
  match runToOutputs env param w with
  | .error (out, f) => (out, runDeferred f.deferred f.world)
  | .ok (dataPoint, batchSize, f) =>
    let (out, f1) := finish env dataPoint batchSize f
    (out, runDeferred f1.deferred f1.world)

/-! ## The template renderer -/

/-- The character that opens a reference after the dollar sign. -/
def openBrace : Char := Char.ofNat 123

/-- The character that closes a reference. -/
def closeBrace : Char := Char.ofNat 125

/-- The double quote. -/
def quoteChar : Char := Char.ofNat 34

/-- The backslash. -/
def backslashChar : Char := Char.ofNat 92

/-- A piece of a leaf string: plain text or the body of a reference token. -/
inductive Piece where
  | text (cs : List Char)
  | token (body : List Char)
  deriving DecidableEq

/-- Where the scanner of a leaf string stands: in plain text, after a dollar sign, or inside
a token whose body so far is kept in reverse. -/
inductive ScanMode where
  | plain
  | dollar
  | inToken (body : List Char)
  deriving DecidableEq

/-- The pieces so far with the pending text (kept in reverse) flushed. -/
def flushText (pieces : List Piece) (text : List Char) : List Piece :=
  if text = [] then pieces else pieces ++ [.text text.reverse]

/-- Modelled from the spec: the scan of a leaf string for the tokens of §6, a dollar sign, an
opening brace, a body and a closing brace (`utils.RenderInput` is not in these sources). An
unclosed token is plain text. -/
def scanPieces : List Char → ScanMode → List Char → List Piece → List Piece
  | [], .plain, text, pieces => flushText pieces text
  | [], .dollar, text, pieces => flushText pieces ('$' :: text)
  | [], .inToken body, text, pieces => flushText pieces (body ++ openBrace :: '$' :: text)
  | c :: cs, .plain, text, pieces =>
    if c = '$' then scanPieces cs .dollar text pieces
    else scanPieces cs .plain (c :: text) pieces
  | c :: cs, .dollar, text, pieces =>
    if c = openBrace then scanPieces cs (.inToken []) text pieces
    else if c = '$' then scanPieces cs .dollar ('$' :: text) pieces
    else scanPieces cs .plain (c :: '$' :: text) pieces
  | c :: cs, .inToken body, text, pieces =>
    if c = closeBrace then scanPieces cs .plain [] (flushText pieces text ++ [.token body.reverse])
    else scanPieces cs (.inToken (c :: body)) text pieces

/-- The body of a token cut at its dots. -/
def splitDot : List Char → List Char → List String
  | [], cur => [String.mk cur.reverse]
  | c :: cs, cur =>
    if c = '.' then String.mk cur.reverse :: splitDot cs [] else splitDot cs (c :: cur)

/-- The array index written by a segment of digits. -/
def parseIndex : List Char → Nat → Option Nat
  | [], acc => some acc
  | c :: cs, acc =>
    if c.isDigit then parseIndex cs (acc * 10 + (c.toNat - 48)) else none

/-- Modelled from the spec: the walk of a dotted path through structured values (§4.3); a
segment is an object key, or an array index on an array. -/
def walkPath : Value → List String → Option Value
  | v, [] => some v
  | .struct fields, key :: rest =>
    match mapGet fields key with
    | none => none
    | some v => walkPath v rest
  | .list items, key :: rest =>
    if key.data = [] then none
    else
      match parseIndex key.data 0 with
      | none => none
      | some n =>
        match items[n]? with
        | none => none
        | some v => walkPath v rest
  | _, _ :: _ => none

/-- Modelled from the spec: the resolution of a token, `cache[component-id]` and then the
path; an unresolved token is an error (§4.3). -/
def resolveToken (cache : Struct) (body : List Char) : Except Error Value :=
  match splitDot body [] with
  | [] => .error (.renderError "UnresolvedReference")
  | compId :: path =>
    match mapGet cache compId with
    | none => .error (.renderError "UnresolvedReference")
    | some v =>
      match walkPath v path with
      | none => .error (.renderError "UnresolvedReference")
      | some r => .ok r

/-- The characters of a string inside a JSON string literal. -/
def escapeChars : List Char → List Char
  | [] => []
  | c :: cs =>
    if c = quoteChar ∨ c = backslashChar then backslashChar :: c :: escapeChars cs
    else c :: escapeChars cs

mutual
/-- The JSON textual form of a value. -/
def jsonText : Value → List Char
  | .null => "null".data
  | .bool true => "true".data
  | .bool false => "false".data
  | .num n => (toString n).data
  | .str s => quoteChar :: escapeChars s.data ++ [quoteChar]
  | .list items => '[' :: jsonTextList items ++ [']']
  | .struct fields => openBrace :: jsonTextFields fields ++ [closeBrace]
/-- The JSON textual form of the elements of an array. -/
def jsonTextList : List Value → List Char
  | [] => []
  | [v] => jsonText v
  | v :: rest => jsonText v ++ ',' :: jsonTextList rest
/-- The JSON textual form of the members of an object. -/
def jsonTextFields : List (String × Value) → List Char
  | [] => []
  | [(k, v)] => quoteChar :: escapeChars k.data ++ quoteChar :: ':' :: jsonText v
  | (k, v) :: rest =>
    quoteChar :: escapeChars k.data ++ quoteChar :: ':' :: jsonText v ++ ',' :: jsonTextFields rest
end

/-- Modelled from the spec: the splice of the pieces of a leaf string that is not a single
token; each token is replaced by the JSON textual form of its value (§4.3). -/
def splicePieces (cache : Struct) : List Piece → Except Error (List Char)
  | [] => .ok []
  | .text cs :: rest =>
    match splicePieces cache rest with
    | .error err => .error err
    | .ok tail => .ok (cs ++ tail)
  | .token body :: rest =>
    match resolveToken cache body with
    | .error err => .error err
    | .ok v =>
      match splicePieces cache rest with
      | .error err => .error err
      | .ok tail => .ok (jsonText v ++ tail)

/-- Modelled from the spec: the rendering of a leaf string; a string that is one token takes
the value of the token with its type, any other string is spliced (§4.3). -/
def renderString (cache : Struct) (s : String) : Except Error Value :=
  match scanPieces s.data .plain [] [] with
  | [.token body] => resolveToken cache body
  | pieces =>
    match splicePieces cache pieces with
    | .error err => .error err
    | .ok cs => .ok (.str (String.mk cs))

mutual
/-- Modelled from the spec: `utils.RenderInput`, which is not in these sources; a structural
copy of the template in which every leaf string is rendered against the item cache (§4.3). -/
def RenderInput (cache : Struct) : Value → Except Error Value
  | .str s => renderString cache s
  | .list items =>
    match renderItems cache items with
    | .error err => .error err
    | .ok rendered => .ok (.list rendered)
  | .struct fields =>
    match renderFields cache fields with
    | .error err => .error err
    | .ok rendered => .ok (.struct rendered)
  | .null => .ok .null
  | .bool b => .ok (.bool b)
  | .num n => .ok (.num n)
/-- The rendering of the elements of an array. -/
def renderItems (cache : Struct) : List Value → Except Error (List Value)
  | [] => .ok []
  | v :: rest =>
    match RenderInput cache v with
    | .error err => .error err
    | .ok r =>
      match renderItems cache rest with
      | .error err => .error err
      | .ok rs => .ok (r :: rs)
/-- The rendering of the members of an object. -/
def renderFields (cache : Struct) : List (String × Value) → Except Error (List (String × Value))
  | [] => .ok []
  | (k, v) :: rest =>
    match RenderInput cache v with
    | .error err => .error err
    | .ok r =>
      match renderFields cache rest with
      | .error err => .error err
      | .ok rs => .ok ((k, r) :: rs)
end

/-! ## Environments for the scenarios -/

/-- An environment for a recipe that is a chain listed from the start operator, each
component referring to the one before it, whose one topological order is the listing itself:
the renderer is `RenderInput` and the connector service is the given function of the
resource name and the inputs. -/
def chainEnv (connector : String → List Struct → Except Error (List Struct))
    (workflowID : String) : Env :=
  { Dag := List Component
    GenerateDAG := fun components => .ok components
    TopoloicalSort := fun dag => .ok dag
    RenderInput := fun template cache => RenderInput cache template
    ExecuteConnectorResource := fun _ _ name inputs => connector name inputs
    workflowID := workflowID }

/-- The stub connector of the scenarios: it returns its inputs unchanged. -/
def echoConnector : String → List Struct → Except Error (List Struct) :=
  fun _ inputs => .ok inputs

/-- A world whose store holds the given entries and accepts every write. -/
def worldOf (data : List (String × Blob)) (uuids : List String) : World :=
  { redis := { data := data, rejects := fun _ => false }
    uuids := uuids, sets := [], calls := [], dataPoints := [] }

/-- The start operator of the scenarios. -/
def startComp : Component :=
  { id := "start", definitionName := "operator-definitions/start-operator"
    resourceName := "", configuration := [] }

/-- The end operator with the given configuration. -/
def endComp (configuration : Struct) : Component :=
  { id := "end", definitionName := endOperator, resourceName := "", configuration := configuration }

/-- A trigger request over the given components and input keys. -/
def requestOf (components : List Component) (keys : List String) :
    TriggerAsyncPipelineWorkflowRequest :=
  { pipelineInputBlobRedisKeys := keys
    pipeline := { id := "p", uid := "p-uid", owner := "users/u1", components := components } }

/-- A connector step with the given configuration, dispatched to the resource `echo`. -/
def echoComp (configuration : Struct) : Component :=
  { id := "k", definitionName := "connector-definitions/echo", resourceName := "echo"
    configuration := configuration }

/-- A stub connector that returns the given records whatever its inputs. -/
def constConnector (out : List Struct) : String → List Struct → Except Error (List Struct) :=
  fun _ _ => .ok out

/-- The data point under construction in the scenarios. -/
def demoDataPoint : UsageMetricData :=
  { ownerUID := "u1", pipelineID := "p", pipelineUID := "p-uid", pipelineTriggerUID := "t1"
    status := .unspecified }

/-- The frame of a run after the cache was seeded with the one input `{"x":1}`, over an empty
store and the UUIDs `u1` and `u2`. -/
def seededFrame : Frame :=
  { world := worldOf [] ["u1", "u2"]
    cache := [[("start", .struct [("body", .struct [("x", .num 1)])])]]
    responseCompId := "", result := ⟨[]⟩, deferred := [] }

/-- The frame after the step of the connector `k` with configuration `{"v": "${start.body}"}`
from `seededFrame`, with the echo connector. -/
def echoedFrame : Frame :=
  { world :=
      { redis :=
          { data := [("async_connector_blob:u2:0", .json (.struct [("v", .struct [("x", .num 1)])])),
              ("async_connector_blob:u1:0", .json (.struct [("v", .struct [("x", .num 1)])]))]
            rejects := fun _ => false }
        uuids := []
        sets := [("async_connector_blob:u1:0", .json (.struct [("v", .struct [("x", .num 1)])])),
          ("async_connector_blob:u2:0", .json (.struct [("v", .struct [("x", .num 1)])]))]
        calls := [{ inputBlobRedisKeys := ["async_connector_blob:u1:0"], name := "echo"
                    ownerPermalink := "users/u1"
                    pipelineMetadata :=
                      { id := "p", uid := "p-uid", owner := "users/u1", triggerId := "t1" } }]
        dataPoints := [] }
    cache := [[("k", .struct [("v", .struct [("x", .num 1)])]),
      ("start", .struct [("body", .struct [("x", .num 1)])])]]
    responseCompId := "", result := ⟨[]⟩, deferred := ["async_connector_blob:u2:0"] }

/-- An end operator that also names a resource. -/
def endWithResource : Component :=
  { id := "end", definitionName := endOperator, resourceName := "echo"
    configuration := [("body", .str "${start.body}")] }

/-- The store of the scenarios S2 and S3: the inputs `{"x":7}` and `{"x":8}` under the keys
`in0` and `in1`, every write accepted, and the UUIDs `u1` and `u2`. -/
def twoInputsWorld : World :=
  worldOf [("in0", .json (.struct [("x", .num 7)])), ("in1", .json (.struct [("x", .num 8)]))]
    ["u1", "u2"]

/-- The request of scenario S3: the start operator and the connector `k` with configuration
`{"v": "${start.body.x}"}`, no end operator. -/
def missingEndRequest : TriggerAsyncPipelineWorkflowRequest :=
  requestOf [startComp, echoComp [("v", .str "${start.body.x}")]] ["in0", "in1"]

/-- The frame of scenario S3 when the component loop completes. -/
def missingEndFrame : Frame :=
  { world :=
      { redis :=
          { data := [("async_connector_blob:u2:1", .json (.struct [("v", .num 8)])),
              ("async_connector_blob:u2:0", .json (.struct [("v", .num 7)])),
              ("async_connector_blob:u1:1", .json (.struct [("v", .num 8)])),
              ("async_connector_blob:u1:0", .json (.struct [("v", .num 7)])),
              ("in0", .json (.struct [("x", .num 7)])), ("in1", .json (.struct [("x", .num 8)]))]
            rejects := fun _ => false }
        uuids := []
        sets := [("async_connector_blob:u1:0", .json (.struct [("v", .num 7)])),
          ("async_connector_blob:u1:1", .json (.struct [("v", .num 8)])),
          ("async_connector_blob:u2:0", .json (.struct [("v", .num 7)])),
          ("async_connector_blob:u2:1", .json (.struct [("v", .num 8)]))]
        calls := [{ inputBlobRedisKeys := ["async_connector_blob:u1:0", "async_connector_blob:u1:1"]
                    name := "echo", ownerPermalink := "users/u1"
                    pipelineMetadata :=
                      { id := "p", uid := "p-uid", owner := "users/u1", triggerId := "t1" } }]
        dataPoints := [] }
    cache := [[("k", .struct [("v", .num 7)]), ("start", .struct [("body", .struct [("x", .num 7)])])],
      [("k", .struct [("v", .num 8)]), ("start", .struct [("body", .struct [("x", .num 8)])])]]
    responseCompId := "", result := ⟨[]⟩
    deferred := ["async_connector_blob:u2:1", "async_connector_blob:u2:0"] }

/-- The store of scenario S1: the input `{"x":1}` under the key `in0`, every write
accepted. -/
def oneInputWorld : World :=
  worldOf [("in0", .json (.struct [("x", .num 1)]))] ["u1", "u2"]

/-- The request of scenario S1: the start operator and the end operator with configuration
`{"body": "${start.body}"}`. -/
def identityRequest : TriggerAsyncPipelineWorkflowRequest :=
  requestOf [startComp, endComp [("body", .str "${start.body}")]] ["in0"]

/-- An end operator whose id is the empty string. -/
def namelessEnd : Component :=
  { id := "", definitionName := endOperator, resourceName := ""
    configuration := [("body", .str "${start.body}")] }

/-- The request of scenario S2: the start operator, the connector `k` with configuration
`{"v": "${start.body.x}"}` and the end operator with configuration `{"body": "${k.v}"}`. -/
def singleConnectorRequest : TriggerAsyncPipelineWorkflowRequest :=
  requestOf [startComp, echoComp [("v", .str "${start.body.x}")],
    endComp [("body", .str "${k.v}")]] ["in0", "in1"]

/-- Scenario S2 with the configuration of `k` changed to `{"v": "${start.body}"}`. -/
def wholeBodyRequest : TriggerAsyncPipelineWorkflowRequest :=
  requestOf [startComp, echoComp [("v", .str "${start.body}")],
    endComp [("body", .str "${k.v}")]] ["in0", "in1"]

/-- A request whose end operator has the configuration `{"body": "${start.body.x}"}`, so
that the body of the response is the value of the field `x` of the input. -/
def scalarBodyRequest : TriggerAsyncPipelineWorkflowRequest :=
  requestOf [startComp, endComp [("body", .str "${start.body.x}")]] ["in0"]

/-- A world whose store holds the input `{"x":1}` under `in0` and refuses every write. -/
def rejectingWorld : World :=
  { redis := { data := [("in0", .json (.struct [("x", .num 1)]))], rejects := fun _ => true }
    uuids := ["u1", "u2"], sets := [], calls := [], dataPoints := [] }

/-- A second connector step, dispatched to the resource `echo2`, whose configuration
`{"w": "${k.v}"}` refers to the connector `k`. -/
def secondConnector : Component :=
  { id := "k2", definitionName := "connector-definitions/echo", resourceName := "echo2"
    configuration := [("w", .str "${k.v}")] }

/-- A request over the start operator and two connectors in a chain, with one input key. -/
def twoConnectorsRequest : TriggerAsyncPipelineWorkflowRequest :=
  requestOf [startComp, echoComp [("v", .str "${start.body}")], secondConnector] ["in0"]

/-! ## Helpers of the statements -/

/-- The number written by a list of decimal digits after the digits read so far. -/
def readDigits (acc : Nat) (cs : List Char) : Nat :=
  cs.foldl (fun a c => a * 10 + (c.toNat - 48)) acc

/-- Whether a key belongs to the family of the pipeline responses. -/
def isResponseKey (key : String) : Bool :=
  "async_pipeline_response:".data.isPrefixOf key.data

/-- What the component loop keeps from one frame to a later one: the data points, the
acceptance of the store, the variable `result` and the size of the cache are unchanged, and
the `Set` commands and deferred deletions that were added are on keys outside the family of
the pipeline responses. -/
structure Frame.Grows (f f' : Frame) : Prop where
  dataPoints : f'.world.dataPoints = f.world.dataPoints
  rejects : f'.world.redis.rejects = f.world.redis.rejects
  result : f'.result = f.result
  cacheLength : f'.cache.length = f.cache.length
  sets : ∃ ws, f'.world.sets = f.world.sets ++ ws ∧ ∀ e ∈ ws, isResponseKey e.1 = false
  deferred : ∃ ds, f'.deferred = ds ++ f.deferred ∧ ∀ k ∈ ds, isResponseKey k = false

end Worker

/-! The task `TASK_RENAME_FIELDS` of the JSON operator, `pkg/component/operator/json/v0/main.go`.

The input of a task is a `structpb.Struct`, a tree of `Worker.Value`; the value of
`AsInterface` is the same tree, the nil interface being `null`. The JSON schema
(`config/schema.json`, read through `gojsonschema`) is not in these sources and is a parameter,
and so is `fmt.Errorf` applied to a text alone, which reads the text as a format.
A Go panic is an exit of its own.

The function `renameFields` is embedded up to its validation (line 239). Its last statement
(lines 241 to 243) passes `structpb.NewStruct(...)`, which has the two results `*Struct` and
`error`, to `structpb.NewStructValue`, which has one parameter: the expression is not a Go
expression, it has no value to embed, and the function as committed returns nothing. -/

namespace JsonOperator

open Worker

/-- An error built by `errmsg.AddMessage(err, message)`: the text of `err` and the message for
the user. -/
structure TaskError where
  cause : String
  message : String
  deriving DecidableEq, Repr

/-- How a task ends when it returns no output. -/
inductive Failure where
  | err (e : TaskError)
  | panic (reason : String)
  deriving DecidableEq, Repr

/-- The compiled schema: `schema.Validate` gives its own error, or the descriptions of the
violations found (none when the document is valid). -/
structure Schema where
  Validate : Value → Except String (List String)

/-- The text `desc; ` of every violation, one after the other. -/
def joinErrors : List String → String
  | [] => ""
  | desc :: rest => desc ++ "; " ++ joinErrors rest

/-- The function `validateJSON`: the input is validated against the schema. The text of the
violations goes through `fmt.Errorf(errMsg)`, which reads it as a format: `errorf` is that
call on a text alone. -/
def validateJSON (schema : Schema) (errorf : String → String) (input : Value) :
    Except String Unit :=
  match schema.Validate input with
  | .error err => .error ("validation error: " ++ err)
  | .ok errors =>
    if errors = [] then .ok ()
    else .error (errorf ("JSON does not conform to the schema: " ++ joinErrors errors))

/-- The getter `GetStringValue` of the value under a key: the empty string when the key is
absent or the value is not a string. -/
def getStringValue : Option Value → String
  | some (.str s) => s
  | _ => ""

/-- The call `AsInterface` on the value under a key: nil, here `null`, when the key is absent. -/
def asInterface : Option Value → Value
  | some v => v
  | none => .null

/-- The expression `GetListValue().Values` on the value under a key: `none` stands for the
nil pointer that `GetListValue` returns for a value that is not a list. -/
def listValues : Option Value → Option (List Value)
  | some (.list values) => some values
  | _ => none

/-- The single quote of the conflict message. -/
def singleQuote : String := String.singleton (Char.ofNat 39)

/-- The text of `fmt.Errorf` for a conflict on the key `to`. -/
def fieldConflict (toKey : String) : String :=
  "field conflict: " ++ singleQuote ++ toKey ++ singleQuote ++ " already exists"

/-- The statements `delete(m, from)` and `m[to] = val`. -/
def moveKey (m : Struct) (fromKey toKey : String) (val : Value) : Struct :=
  mapSet (mapDel m fromKey) toKey val

/-- The body of the loop over `fields`, for one mapping: `jsonValue` after it, or the exit. -/
def renameField (conflictResolution : String) (field : Value) (jsonValue : Value) :
    Except Failure Value :=
  match field with
  | .struct mapping =>
    let fromKey := getStringValue (mapGet mapping "from")
    let toKey := getStringValue (mapGet mapping "to")
    match jsonValue with
    | .struct m =>
      match mapGet m fromKey with
      | some val =>
        if conflictResolution = "overwrite" then .ok (.struct (moveKey m fromKey toKey val))
        else if conflictResolution = "skip" then
          if (mapGet m toKey).isSome then .ok (.struct m)
          else .ok (.struct (moveKey m fromKey toKey val))
        else if conflictResolution = "error" then
          if (mapGet m toKey).isSome then
            .error (.err { cause := fieldConflict toKey, message := "Field conflict." })
          else .ok (.struct (moveKey m fromKey toKey val))
        else
          .error (.err { cause := "invalid conflict resolution strategy"
                         message := "Conflict resolution strategy is invalid." })
      | none => .ok (.struct m)
    | _ => .error (.panic "interface conversion: interface {} is not map[string]interface {}")
  | _ => .error (.panic "invalid memory address or nil pointer dereference")

/-- The loop `for _, field := range fields`. -/
def renameLoop (conflictResolution : String) : List Value → Value → Except Failure Value
  | [], jsonValue => .ok jsonValue
  | field :: rest, jsonValue =>
    match renameField conflictResolution field jsonValue with
    | .error stop => .error stop
    | .ok renamed => renameLoop conflictResolution rest renamed

/-- The function `renameFields` from its first statement to the validation of line 239: the
value of `jsonValue` that the last statement is meant to return, or the exit taken before.
The last statement is not embedded: it is ill-typed in the source. -/
def renameFieldsBeforeOutput (schema : Schema) (errorf : String → String) (input : Struct) :
    Except Failure Value :=
  let jsonValue := asInterface (mapGet input "json")
  match listValues (mapGet input "fields") with
  | none => .error (.panic "invalid memory address or nil pointer dereference")
  | some fields =>
    let conflictResolution := getStringValue (mapGet input "conflict-resolution")
    if jsonValue = .null ∨ fields.length = 0 then
      .error (.err { cause := "missing required fields: json and fields"
                     message := "JSON and fields are required." })
    else
      match renameLoop conflictResolution fields jsonValue with
      | .error stop => .error stop
      | .ok renamed =>
        match validateJSON schema errorf renamed with
        | .error err =>
          .error (.err { cause := err, message := "Validation failed for renamed JSON object." })
        | .ok _ => .ok renamed

end JsonOperator

namespace Worker

/-! # Theorems -/

/-! ## Maps -/

theorem mapGet_mapDel_self {β : Type} (m : List (String × β)) (k : String) :
    mapGet (mapDel m k) k = none := by
  induction m with
  | nil => rfl
  | cons e rest ih =>
    obtain ⟨k', v⟩ := e
    by_cases h : k' = k
    · simp [mapDel, h, ih]
    · simp [mapDel, mapGet, h, ih]

theorem mapGet_mapDel_ne {β : Type} (m : List (String × β)) (k k' : String) (h : k' ≠ k) :
    mapGet (mapDel m k) k' = mapGet m k' := by
  induction m with
  | nil => rfl
  | cons e rest ih =>
    obtain ⟨k0, v⟩ := e
    by_cases h0 : k0 = k
    · subst h0
      have : ¬ k0 = k' := fun e => h e.symm
      simp [mapDel, mapGet, this, ih]
    · by_cases h1 : k0 = k'
      · subst h1
        simp [mapDel, mapGet, h0]
      · simp [mapDel, mapGet, h0, h1, ih]

theorem mapGet_mapSet_self {β : Type} (m : List (String × β)) (k : String) (v : β) :
    mapGet (mapSet m k v) k = some v := by
  simp [mapSet, mapGet]

theorem mapGet_mapSet_ne {β : Type} (m : List (String × β)) (k k' : String) (v : β)
    (h : k' ≠ k) : mapGet (mapSet m k v) k' = mapGet m k' := by
  have : ¬ k = k' := fun e => h e.symm
  simp [mapSet, mapGet, this, mapGet_mapDel_ne m k k' h]

/-! ## Keys -/

theorem digitChar_value : ∀ d : Nat, d < 10 → (Nat.digitChar d).toNat - 48 = d := by
  decide

theorem readDigits_toDigitsCore (fuel : Nat) :
    ∀ (n : Nat) (ds : List Char), n < fuel →
      readDigits 0 (Nat.toDigitsCore 10 fuel n ds) = readDigits n ds := by
  induction fuel with
  | zero => intro n ds h; omega
  | succ fuel ih =>
    intro n ds h
    unfold Nat.toDigitsCore
    by_cases h0 : n / 10 = 0
    · simp only [h0, if_true]
      have hn : n % 10 = n := by omega
      have hd := digitChar_value (n % 10) (Nat.mod_lt _ (by decide))
      rw [hn] at hd
      simp [readDigits, hn, hd]
    · simp only [h0, if_false]
      rw [ih (n / 10) _ (by omega)]
      simp only [readDigits, List.foldl_cons]
      rw [digitChar_value (n % 10) (Nat.mod_lt _ (by decide))]
      have : n / 10 * 10 + n % 10 = n := by omega
      rw [this]

theorem toString_nat_injective (a b : Nat) (h : toString a = toString b) : a = b := by
  have ha := readDigits_toDigitsCore (a + 1) a [] (by omega)
  have hb := readDigits_toDigitsCore (b + 1) b [] (by omega)
  have hd : Nat.toDigits 10 a = Nat.toDigits 10 b := by
    have := congrArg String.data h
    simpa [toString, Nat.repr, List.asString] using this
  simp only [Nat.toDigits] at hd
  rw [hd, hb] at ha
  simpa [readDigits] using ha.symm

theorem connectorBlobKey_injective (id : String) (i j : Nat)
    (h : connectorBlobKey id i = connectorBlobKey id j) : i = j := by
  apply toString_nat_injective
  have := congrArg String.data h
  simp only [connectorBlobKey, String.data_append, List.append_assoc] at this
  have h2 := List.append_cancel_left (List.append_cancel_left (List.append_cancel_left this))
  exact String.ext h2

theorem pipelineResponseKey_injective (wid : String) (i j : Nat)
    (h : pipelineResponseKey wid i = pipelineResponseKey wid j) : i = j := by
  apply toString_nat_injective
  have := congrArg String.data h
  simp only [pipelineResponseKey, String.data_append, List.append_assoc] at this
  have h2 := List.append_cancel_left (List.append_cancel_left (List.append_cancel_left this))
  exact String.ext h2

theorem isResponseKey_pipelineResponseKey (wid : String) (i : Nat) :
    isResponseKey (pipelineResponseKey wid i) = true := by
  simp only [isResponseKey, pipelineResponseKey, String.data_append, List.append_assoc]
  rw [List.isPrefixOf_iff_prefix]
  exact List.prefix_append _ _

theorem isResponseKey_connectorBlobKey (id : String) (i : Nat) :
    isResponseKey (connectorBlobKey id i) = false := by
  simp only [isResponseKey, connectorBlobKey, String.data_append, List.append_assoc]
  simp [List.isPrefixOf]

/-! ## The blob store -/

theorem GetBlob_ok_iff (r : Redis) (keys : List String) (payloads : List Struct) :
    GetBlob r keys = .ok payloads ↔
      List.Forall₂ (fun key m => ∃ blob, r.Get key = .ok blob ∧ protojsonUnmarshal blob = .ok m)
        keys payloads := by
  induction keys generalizing payloads with
  | nil =>
    constructor
    · intro h
      simp only [GetBlob, Except.ok.injEq] at h
      subst h
      exact List.Forall₂.nil
    · intro h
      cases h
      rfl
  | cons key rest ih =>
    constructor
    · intro h
      unfold GetBlob at h
      cases hg : r.Get key with
      | error e => simp [hg] at h
      | ok blob =>
        cases hu : protojsonUnmarshal blob with
        | error e => simp [hg, hu] at h
        | ok m =>
          cases hr : GetBlob r rest with
          | error e => simp [hg, hu, hr] at h
          | ok ps =>
            simp only [hg, hu, hr, Except.ok.injEq] at h
            subst h
            exact List.Forall₂.cons ⟨blob, hg, hu⟩ ((ih ps).1 hr)
    · intro h
      cases h with
      | cons hhead htail =>
        obtain ⟨blob, hg, hu⟩ := hhead
        unfold GetBlob
        simp [hg, hu, (ih _).2 htail]

theorem GetBlob_length (r : Redis) (keys : List String) (payloads : List Struct)
    (h : GetBlob r keys = .ok payloads) : payloads.length = keys.length :=
  ((GetBlob_ok_iff r keys payloads).1 h).length_eq.symm

theorem GetBlob_error_of_missing (r : Redis) (keys : List String) (key : String)
    (hmem : key ∈ keys) (hmiss : mapGet r.data key = none) :
    ∃ err, GetBlob r keys = .error err := by
  cases hg : GetBlob r keys with
  | error e => exact ⟨e, rfl⟩
  | ok ps =>
    exfalso
    have hall := (GetBlob_ok_iff r keys ps).1 hg
    clear hg
    induction hall with
    | nil => cases hmem
    | cons hhead _ ih =>
      rcases List.mem_cons.1 hmem with heq | hin
      · subst heq
        obtain ⟨blob, hget, _⟩ := hhead
        simp [Redis.Get, hmiss] at hget
      · exact ih hin

theorem GetBlob_ok_of_present (r : Redis) (keys : List String)
    (h : ∀ key ∈ keys, ∃ blob m, r.Get key = .ok blob ∧ protojsonUnmarshal blob = .ok m) :
    ∃ payloads, GetBlob r keys = .ok payloads := by
  induction keys with
  | nil => exact ⟨[], rfl⟩
  | cons key rest ih =>
    obtain ⟨blob, m, hg, hu⟩ := h key (List.mem_cons_self _ _)
    obtain ⟨ps, hps⟩ := ih (fun k hk => h k (List.mem_cons_of_mem _ hk))
    exact ⟨m :: ps, by unfold GetBlob; simp [hg, hu, hps]⟩

theorem forall₂_getElem? {α β : Type} {R : α → β → Prop} {l₁ : List α} {l₂ : List β}
    (h : List.Forall₂ R l₁ l₂) :
    ∀ (i : Nat) (a : α), l₁[i]? = some a → ∃ b, l₂[i]? = some b ∧ R a b := by
  induction h with
  | nil => intro i a ha; simp at ha
  | cons hhead _ ih =>
    intro i a ha
    cases i with
    | zero =>
      simp only [List.getElem?_cons_zero, Option.some.injEq] at ha
      subst ha
      exact ⟨_, by simp, hhead⟩
    | succ i =>
      simp only [List.getElem?_cons_succ] at ha
      obtain ⟨b, hb, hr⟩ := ih i a ha
      exact ⟨b, by simpa using hb, hr⟩

/-- C9: for every list of keys, `GetBlob` returns an error (and so no records, not even a
partial list) when at least one key is absent from the store; when every key is present and
decodes, it returns one record per key, in key order: record `i` is the decoding of the bytes
under key `i`. -/
theorem GetBlob_absent_or_complete (r : Redis) (keys : List String) :
    ((∃ key ∈ keys, mapGet r.data key = none) → ∃ err, GetBlob r keys = .error err) ∧
    ((∀ key ∈ keys, ∃ blob m, r.Get key = .ok blob ∧ protojsonUnmarshal blob = .ok m) →
      ∃ payloads, GetBlob r keys = .ok payloads ∧ payloads.length = keys.length ∧
        ∀ (i : Nat) (key : String), keys[i]? = some key →
          ∃ blob m, r.Get key = .ok blob ∧ protojsonUnmarshal blob = .ok m ∧
            payloads[i]? = some m) := by
  constructor
  · rintro ⟨key, hmem, hmiss⟩
    exact GetBlob_error_of_missing r keys key hmem hmiss
  · intro h
    obtain ⟨ps, hps⟩ := GetBlob_ok_of_present r keys h
    refine ⟨ps, hps, GetBlob_length r keys ps hps, ?_⟩
    intro i key hk
    obtain ⟨m, hm, blob, hg, hu⟩ := forall₂_getElem? ((GetBlob_ok_iff r keys ps).1 hps) i key hk
    exact ⟨blob, m, hg, hu, hm⟩

/-- C9, at a store holding `a` and `b`: reading `a` and an absent key is an error, and
reading `a` and `b` gives their two records in that order. -/
theorem GetBlob_absent_or_complete_witness :
    (∃ err, GetBlob (worldOf [("a", .json (.struct [("x", .num 1)])),
        ("b", .json (.struct []))] []).redis ["a", "gone"] = .error err) ∧
    (∃ payloads, GetBlob (worldOf [("a", .json (.struct [("x", .num 1)])),
        ("b", .json (.struct []))] []).redis ["a", "b"] = .ok payloads ∧
      payloads.length = ["a", "b"].length ∧
        ∀ (i : Nat) (key : String), ["a", "b"][i]? = some key →
          ∃ blob m, (worldOf [("a", .json (.struct [("x", .num 1)])),
              ("b", .json (.struct []))] []).redis.Get key = .ok blob ∧
            protojsonUnmarshal blob = .ok m ∧ payloads[i]? = some m) :=
  ⟨(GetBlob_absent_or_complete _ ["a", "gone"]).1 ⟨"gone", by decide, by decide⟩,
   (GetBlob_absent_or_complete _ ["a", "b"]).2 (by
      intro key hk
      simp only [List.mem_cons, List.mem_singleton, List.not_mem_nil, or_false] at hk
      rcases hk with rfl | rfl
      · exact ⟨_, _, rfl, rfl⟩
      · exact ⟨_, _, rfl, rfl⟩)⟩

theorem setBlobLoop_fst (id : String) (rs : List Struct) :
    ∀ (idx : Nat) (acc : List String) (w : World),
      (setBlobLoop id rs idx acc w).1 =
        .ok (acc ++ (List.range' idx rs.length).map (connectorBlobKey id)) := by
  induction rs with
  | nil => intro idx acc w; simp [setBlobLoop]
  | cons r rest ih =>
    intro idx acc w
    simp only [setBlobLoop, protojsonMarshal]
    rw [ih]
    simp [List.range'_succ]

theorem setBlobLoop_world (id : String) (rs : List Struct) :
    ∀ (idx : Nat) (acc : List String) (w : World),
      (setBlobLoop id rs idx acc w).2.uuids = w.uuids ∧
      (setBlobLoop id rs idx acc w).2.calls = w.calls ∧
      (setBlobLoop id rs idx acc w).2.dataPoints = w.dataPoints ∧
      (setBlobLoop id rs idx acc w).2.redis.rejects = w.redis.rejects := by
  induction rs with
  | nil => intro idx acc w; simp [setBlobLoop]
  | cons r rest ih =>
    intro idx acc w
    simp only [setBlobLoop, protojsonMarshal]
    obtain ⟨h1, h2, h3, h4⟩ := ih (idx + 1) (acc ++ [connectorBlobKey id idx])
      (w.redisSet (connectorBlobKey id idx) (.json (.struct r)))
    refine ⟨h1, h2, h3, ?_⟩
    rw [h4]
    simp only [World.redisSet, Redis.Set]
    split <;> rfl

theorem setBlobLoop_sets (id : String) (rs : List Struct) :
    ∀ (idx : Nat) (acc : List String) (w : World),
      ∃ writes : List (String × Blob),
        (setBlobLoop id rs idx acc w).2.sets = w.sets ++ writes ∧
        ∀ e ∈ writes, ∃ i, e.1 = connectorBlobKey id i := by
  induction rs with
  | nil => intro idx acc w; exact ⟨[], by simp [setBlobLoop], by simp⟩
  | cons r rest ih =>
    intro idx acc w
    simp only [setBlobLoop, protojsonMarshal]
    obtain ⟨ws, h1, h2⟩ := ih (idx + 1) (acc ++ [connectorBlobKey id idx])
      (w.redisSet (connectorBlobKey id idx) (.json (.struct r)))
    refine ⟨(connectorBlobKey id idx, .json (.struct r)) :: ws, ?_, ?_⟩
    · rw [h1]; simp [World.redisSet]
    · intro e he
      rcases List.mem_cons.1 he with rfl | hin
      · exact ⟨idx, rfl⟩
      · exact h2 e hin

theorem redisSet_get_other (w : World) (key k : String) (b : Blob) (h : k ≠ key) :
    mapGet (w.redisSet key b).redis.data k = mapGet w.redis.data k := by
  simp only [World.redisSet, Redis.Set]
  split
  · rfl
  · exact mapGet_mapSet_ne _ _ _ _ h

theorem redisSet_get_self (w : World) (key : String) (b : Blob)
    (h : w.redis.rejects key = false) :
    mapGet (w.redisSet key b).redis.data key = some b := by
  simp [World.redisSet, Redis.Set, h, mapGet_mapSet_self]

theorem setBlobLoop_get_other (id : String) (rs : List Struct) :
    ∀ (idx : Nat) (acc : List String) (w : World) (k : String),
      (∀ i, i < rs.length → k ≠ connectorBlobKey id (idx + i)) →
      mapGet (setBlobLoop id rs idx acc w).2.redis.data k = mapGet w.redis.data k := by
  induction rs with
  | nil => intro idx acc w k _; simp [setBlobLoop]
  | cons r rest ih =>
    intro idx acc w k hk
    simp only [setBlobLoop, protojsonMarshal]
    rw [ih]
    · exact redisSet_get_other _ _ _ _ (by simpa using hk 0 (by simp))
    · intro i hi
      have := hk (i + 1) (by simpa using hi)
      rwa [show idx + (i + 1) = idx + 1 + i by omega] at this

theorem setBlobLoop_get (id : String) (rs : List Struct) :
    ∀ (idx : Nat) (acc : List String) (w : World),
      (∀ i, i < rs.length → w.redis.rejects (connectorBlobKey id (idx + i)) = false) →
      ∀ (i : Nat) (m : Struct), rs[i]? = some m →
        mapGet (setBlobLoop id rs idx acc w).2.redis.data (connectorBlobKey id (idx + i)) =
          some (.json (.struct m)) := by
  induction rs with
  | nil => intro idx acc w _ i m hm; simp at hm
  | cons r rest ih =>
    intro idx acc w hacc i m hm
    simp only [setBlobLoop, protojsonMarshal]
    cases i with
    | zero =>
      simp only [List.getElem?_cons_zero, Option.some.injEq] at hm
      subst hm
      rw [setBlobLoop_get_other]
      · exact redisSet_get_self _ _ _ (by simpa using hacc 0 (by simp))
      · intro j _ hEq
        have := connectorBlobKey_injective id _ _ hEq
        omega
    | succ i =>
      simp only [List.getElem?_cons_succ] at hm
      have := ih (idx + 1) (acc ++ [connectorBlobKey id idx])
        (w.redisSet (connectorBlobKey id idx) (.json (.struct r))) (by
          intro j hj
          have h1 := hacc (j + 1) (by simpa using hj)
          rw [show idx + (j + 1) = idx + 1 + j by omega] at h1
          simp only [World.redisSet, Redis.Set]
          split <;> exact h1) i m hm
      rwa [show idx + 1 + i = idx + (i + 1) by omega] at this

theorem GetBlob_range (r : Redis) (id : String) (rs : List Struct) :
    ∀ (idx : Nat),
      (∀ (i : Nat) (m : Struct), rs[i]? = some m →
        mapGet r.data (connectorBlobKey id (idx + i)) = some (.json (.struct m))) →
      GetBlob r ((List.range' idx rs.length).map (connectorBlobKey id)) = .ok rs := by
  induction rs with
  | nil => intro idx _; rfl
  | cons m rest ih =>
    intro idx h
    have h0 := h 0 m (by simp)
    have hrest := ih (idx + 1) (by
      intro i m' hm'
      have := h (i + 1) m' (by simpa using hm')
      rwa [show idx + (i + 1) = idx + 1 + i by omega] at this)
    simp only [List.length_cons, List.range'_succ, List.map_cons, GetBlob, Redis.Get]
    simp only [Nat.add_zero] at h0
    simp [h0, protojsonUnmarshal, hrest]

theorem connectorBlobKeys_nodup (id : String) (idx n : Nat) :
    ((List.range' idx n).map (connectorBlobKey id)).Nodup := by
  apply List.Nodup.map
  · intro a b h
    exact connectorBlobKey_injective id a b h
  · exact List.nodup_range' idx n

theorem SetBlob_fst (w : World) (rs : List Struct) :
    (SetBlob w rs).1 = .ok ((List.range' 0 rs.length).map (connectorBlobKey w.newV4.1)) := by
  simp [SetBlob, setBlobLoop_fst]

/-- C8: round trip of the blob store. For every list of records, when the store accepts the
writes of the call, `SetBlob` returns as many keys as records, pairwise distinct, key `i`
being `async_connector_blob:<id>:<i>` for the one id drawn by the call, and `GetBlob` on
those keys in the store after the call returns the records, in the same order. -/
theorem SetBlob_GetBlob_roundtrip (w : World) (rs : List Struct)
    (haccept : ∀ i, i < rs.length →
      w.redis.rejects ("async_connector_blob:" ++ w.newV4.1 ++ ":" ++ toString i) = false) :
    ∃ keys, (SetBlob w rs).1 = .ok keys ∧ keys.length = rs.length ∧ keys.Nodup ∧
      (∀ i, i < rs.length →
        keys[i]? = some ("async_connector_blob:" ++ w.newV4.1 ++ ":" ++ toString i)) ∧
      GetBlob (SetBlob w rs).2.redis keys = .ok rs := by
  refine ⟨(List.range' 0 rs.length).map (connectorBlobKey w.newV4.1), SetBlob_fst w rs,
    by simp, connectorBlobKeys_nodup _ _ _, ?_, ?_⟩
  · intro i hi
    simp [List.getElem?_map, List.getElem?_range', hi, connectorBlobKey]
  · apply GetBlob_range
    intro i m hm
    have hlt : i < rs.length := by
      rcases Nat.lt_or_ge i rs.length with h | h
      · exact h
      · simp [List.getElem?_eq_none h] at hm
    have hw : w.newV4.2.redis = w.redis := by
      unfold World.newV4; split <;> rfl
    simp only [SetBlob]
    apply setBlobLoop_get
    · intro j hj
      rw [hw]
      simpa [connectorBlobKey] using haccept j hj
    · exact hm

/-- C8, for two records, the UUID `u1` and an empty store that accepts every write. -/
theorem SetBlob_GetBlob_roundtrip_witness :
    ∃ keys, (SetBlob (worldOf [] ["u1"]) [[("x", .num 7)], [("x", .num 8)]]).1 = .ok keys ∧
      keys.length = [[("x", Value.num 7)], [("x", Value.num 8)]].length ∧ keys.Nodup ∧
      (∀ i, i < [[("x", Value.num 7)], [("x", Value.num 8)]].length →
        keys[i]? = some ("async_connector_blob:" ++ (worldOf [] ["u1"]).newV4.1 ++ ":" ++
          toString i)) ∧
      GetBlob (SetBlob (worldOf [] ["u1"]) [[("x", .num 7)], [("x", .num 8)]]).2.redis keys =
        .ok [[("x", .num 7)], [("x", .num 8)]] :=
  SetBlob_GetBlob_roundtrip (worldOf [] ["u1"]) [[("x", .num 7)], [("x", .num 8)]]
    (fun _ _ => rfl)

/-! ## The loops of the workflow -/

theorem renderLoop_ok_iff (env : Env) (comp : Component) (cache : List Struct) (n : Nat) :
    ∀ (idx : Nat) (acc out : List Struct),
      renderLoop env comp cache idx n acc = .ok out ↔
        ∃ l, out = acc ++ l ∧ l.length = n ∧
          ∀ (i : Nat) (m : Struct), l[i]? = some m →
            renderItem env comp cache (idx + i) = .ok m := by
  induction n with
  | zero =>
    intro idx acc out
    simp only [renderLoop, Except.ok.injEq]
    constructor
    · intro h
      exact ⟨[], by simp [h], rfl, by simp⟩
    · rintro ⟨l, h1, h2, _⟩
      have : l = [] := List.length_eq_zero.1 h2
      subst this
      simp [h1]
  | succ n ih =>
    intro idx acc out
    simp only [renderLoop]
    cases hr : renderItem env comp cache idx with
    | error e =>
      constructor
      · intro h
        cases h
      · rintro ⟨l, _, hl, hall⟩
        cases l with
        | nil => simp at hl
        | cons m rest =>
          have := hall 0 m (by simp)
          simp [hr] at this
    | ok m =>
      simp only
      rw [ih]
      constructor
      · rintro ⟨l, h1, h2, h3⟩
        refine ⟨m :: l, by simp [h1], by simp [h2], ?_⟩
        intro i m' hm'
        cases i with
        | zero =>
          simp only [List.getElem?_cons_zero, Option.some.injEq] at hm'
          subst hm'
          simpa using hr
        | succ i =>
          simp only [List.getElem?_cons_succ] at hm'
          have := h3 i m' hm'
          rwa [show idx + 1 + i = idx + (i + 1) by omega] at this
      · rintro ⟨l, h1, h2, h3⟩
        cases l with
        | nil => simp at h2
        | cons m0 rest =>
          have h0 := h3 0 m0 (by simp)
          simp only [Nat.add_zero, hr, Except.ok.injEq] at h0
          subst h0
          refine ⟨rest, by simp [h1], by simpa using h2, ?_⟩
          intro i m' hm'
          have := h3 (i + 1) m' (by simpa using hm')
          rwa [show idx + (i + 1) = idx + 1 + i by omega] at this

theorem renderLoop_length (env : Env) (comp : Component) (cache : List Struct) (n : Nat)
    (out : List Struct) (h : renderLoop env comp cache 0 n [] = .ok out) : out.length = n := by
  obtain ⟨l, h1, h2, _⟩ := (renderLoop_ok_iff env comp cache n 0 [] out).1 h
  simp [h1, h2]

theorem storeRecords_not_err (compId : String) (records : List Struct) :
    ∀ (idx : Nat) (cache : List Struct) (e : Error),
      storeRecords compId records idx cache ≠ .error (.err e) := by
  induction records with
  | nil => intro idx cache e; simp [storeRecords]
  | cons r rest ih =>
    intro idx cache e
    simp only [storeRecords, protojsonMarshal, jsonUnmarshalMap]
    cases hc : cache[idx]? with
    | none => simp
    | some item => exact ih _ _ _

theorem storeRecords_length (compId : String) (records : List Struct) :
    ∀ (idx : Nat) (cache cache' : List Struct),
      storeRecords compId records idx cache = .ok cache' → cache'.length = cache.length := by
  induction records with
  | nil =>
    intro idx cache cache' h
    simp only [storeRecords, Except.ok.injEq] at h
    rw [h]
  | cons r rest ih =>
    intro idx cache cache' h
    simp only [storeRecords, protojsonMarshal, jsonUnmarshalMap] at h
    cases hc : cache[idx]? with
    | none => simp [hc] at h
    | some item =>
      simp only [hc] at h
      simpa using ih _ _ _ h

theorem storeRecords_bound (compId : String) (records : List Struct) :
    ∀ (idx : Nat) (cache cache' : List Struct),
      storeRecords compId records idx cache = .ok cache' →
        records = [] ∨ idx + records.length ≤ cache.length := by
  induction records with
  | nil => intro idx cache cache' _; exact Or.inl rfl
  | cons r rest ih =>
    intro idx cache cache' h
    right
    simp only [storeRecords, protojsonMarshal, jsonUnmarshalMap] at h
    cases hc : cache[idx]? with
    | none => simp [hc] at h
    | some item =>
      simp only [hc] at h
      have hlt : idx < cache.length := by
        rcases Nat.lt_or_ge idx cache.length with hl | hg
        · exact hl
        · simp [List.getElem?_eq_none hg] at hc
      rcases ih _ _ _ h with h1 | h1
      · subst h1
        simp only [List.length_cons, List.length_nil]
        omega
      · simp only [List.length_set] at h1
        simp only [List.length_cons]
        omega

theorem storeRecords_get (compId : String) (records : List Struct) :
    ∀ (idx : Nat) (cache cache' : List Struct),
      storeRecords compId records idx cache = .ok cache' →
      ∀ (i : Nat) (item' : Struct), cache'[i]? = some item' →
        ∃ item, cache[i]? = some item ∧
          (∀ k, k ≠ compId → mapGet item' k = mapGet item k) ∧
          (i < idx → item' = item) ∧
          (∀ m, idx ≤ i → records[i - idx]? = some m →
            mapGet item' compId = some (.struct m)) ∧
          (idx + records.length ≤ i → item' = item) := by
  induction records with
  | nil =>
    intro idx cache cache' h i item' hi
    simp only [storeRecords, Except.ok.injEq] at h
    subst h
    exact ⟨item', hi, fun _ _ => rfl, fun _ => rfl, by simp, fun _ => rfl⟩
  | cons r rest ih =>
    intro idx cache cache' h i item' hi
    simp only [storeRecords, protojsonMarshal, jsonUnmarshalMap] at h
    cases hc : cache[idx]? with
    | none => simp [hc] at h
    | some item0 =>
      simp only [hc] at h
      obtain ⟨item1, h1, hother, hlt, hrec, hge⟩ := ih _ _ _ h i item' hi
      by_cases hii : i = idx
      · subst hii
        have hlen : i < cache.length := by
          rcases Nat.lt_or_ge i cache.length with hl | hg
          · exact hl
          · simp [List.getElem?_eq_none hg] at hc
        rw [List.getElem?_set_self hlen] at h1
        simp only [Option.some.injEq] at h1
        have hitem : item' = item1 := hlt (by omega)
        subst hitem
        subst h1
        refine ⟨item0, hc, ?_, ?_, ?_, ?_⟩
        · intro k hk
          exact mapGet_mapSet_ne _ _ _ _ hk
        · intro hcon; omega
        · intro m _ hm
          simp only [Nat.sub_self, List.getElem?_cons_zero, Option.some.injEq] at hm
          subst hm
          exact mapGet_mapSet_self _ _ _
        · intro hcon
          simp only [List.length_cons] at hcon
          omega
      · rw [List.getElem?_set_ne (fun e => hii e.symm)] at h1
        refine ⟨item1, h1, hother, ?_, ?_, ?_⟩
        · intro hl
          exact hlt (by omega)
        · intro m hle hm
          have hlt2 : idx + 1 ≤ i := by omega
          apply hrec m hlt2
          have : i - idx = (i - (idx + 1)) + 1 := by omega
          rw [this] at hm
          simpa using hm
        · intro hcon
          simp only [List.length_cons] at hcon
          exact hge (by omega)

theorem storeRecords_succeeds (compId : String) (records : List Struct) :
    ∀ (idx : Nat) (cache : List Struct), idx + records.length ≤ cache.length →
      ∃ cache', storeRecords compId records idx cache = .ok cache' := by
  induction records with
  | nil => intro idx cache _; exact ⟨cache, rfl⟩
  | cons r rest ih =>
    intro idx cache h
    simp only [List.length_cons] at h
    have hlt : idx < cache.length := by omega
    simp only [storeRecords, protojsonMarshal, jsonUnmarshalMap]
    rw [List.getElem?_eq_getElem hlt]
    simp only
    apply ih
    simp only [List.length_set]
    omega

/-! ## The world through the blob store and the activity -/

theorem newV4_fields (w : World) :
    w.newV4.2.redis = w.redis ∧ w.newV4.2.sets = w.sets ∧ w.newV4.2.calls = w.calls ∧
      w.newV4.2.dataPoints = w.dataPoints := by
  unfold World.newV4
  split <;> exact ⟨rfl, rfl, rfl, rfl⟩

theorem SetBlob_world (w : World) (rs : List Struct) :
    (SetBlob w rs).2.calls = w.calls ∧ (SetBlob w rs).2.dataPoints = w.dataPoints ∧
      (SetBlob w rs).2.redis.rejects = w.redis.rejects ∧
      ∃ ws, (SetBlob w rs).2.sets = w.sets ++ ws ∧ ∀ e ∈ ws, isResponseKey e.1 = false := by
  obtain ⟨hr, hs, hc, hd⟩ := newV4_fields w
  obtain ⟨_, h2, h3, h4⟩ := setBlobLoop_world w.newV4.1 rs 0 [] w.newV4.2
  obtain ⟨ws, h5, h6⟩ := setBlobLoop_sets w.newV4.1 rs 0 [] w.newV4.2
  simp only [SetBlob]
  refine ⟨by rw [h2, hc], by rw [h3, hd], by rw [h4, hr], ws, by rw [h5, hs], ?_⟩
  intro e he
  obtain ⟨i, hi⟩ := h6 e he
  rw [hi]
  exact isResponseKey_connectorBlobKey _ _

theorem SetBlob_keys_length (w : World) (rs : List Struct) (keys : List String)
    (h : (SetBlob w rs).1 = .ok keys) : keys.length = rs.length := by
  rw [SetBlob_fst] at h
  simp only [Except.ok.injEq] at h
  simp [← h]

theorem SetBlob_keys_family (w : World) (rs : List Struct) (keys : List String)
    (h : (SetBlob w rs).1 = .ok keys) : ∀ k ∈ keys, isResponseKey k = false := by
  rw [SetBlob_fst] at h
  simp only [Except.ok.injEq] at h
  intro k hk
  rw [← h] at hk
  obtain ⟨i, _, hi⟩ := List.mem_map.1 hk
  rw [← hi]
  exact isResponseKey_connectorBlobKey _ _

theorem ConnectorActivity_ok (env : Env) (w w2 : World) (req : ExecuteConnectorActivityRequest)
    (result : ExecuteConnectorActivityResponse)
    (h : ConnectorActivity env w req = (.ok result, w2)) :
    ∃ inputs outputs, GetBlob w.redis req.inputBlobRedisKeys = .ok inputs ∧
      env.ExecuteConnectorResource req.pipelineMetadata req.ownerPermalink req.name inputs =
        .ok outputs ∧
      (SetBlob w outputs).1 = .ok result.outputBlobRedisKeys ∧ w2 = (SetBlob w outputs).2 := by
  unfold ConnectorActivity at h
  cases hg : GetBlob w.redis req.inputBlobRedisKeys with
  | error e => simp [hg] at h
  | ok inputs =>
    simp only [hg] at h
    cases hx : env.ExecuteConnectorResource req.pipelineMetadata req.ownerPermalink req.name
        inputs with
    | error e => simp [hx] at h
    | ok outputs =>
      simp only [hx] at h
      refine ⟨inputs, outputs, rfl, hx, ?_⟩
      have hf := SetBlob_fst w outputs
      cases hsb : SetBlob w outputs with
      | mk r w1 =>
        rw [hsb] at h hf
        simp only at hf
        subst hf
        simp only [Prod.mk.injEq, Except.ok.injEq] at h
        obtain ⟨h1, h2⟩ := h
        subst h1
        subst h2
        exact ⟨rfl, rfl⟩

theorem ExecuteActivity_ok (env : Env) (w w2 : World) (req : ExecuteConnectorActivityRequest)
    (result : ExecuteConnectorActivityResponse)
    (h : ExecuteActivity env w req = (.ok result, w2)) :
    w2.calls = w.calls ++ [req] ∧ w2.dataPoints = w.dataPoints ∧
      w2.redis.rejects = w.redis.rejects ∧
      (∃ ws, w2.sets = w.sets ++ ws ∧ ∀ e ∈ ws, isResponseKey e.1 = false) ∧
      ∀ k ∈ result.outputBlobRedisKeys, isResponseKey k = false := by
  unfold ExecuteActivity at h
  obtain ⟨inputs, outputs, _, _, hkeys, hw⟩ := ConnectorActivity_ok env _ w2 req result h
  obtain ⟨h1, h2, h3, h4⟩ := SetBlob_world { w with calls := w.calls ++ [req] } outputs
  subst hw
  exact ⟨h1, h2, h3, h4, SetBlob_keys_family _ _ _ hkeys⟩

theorem deferInputDels_ok (inKeys : List String) (outer : List String) :
    ∀ (idx : Nat) (d d' : List String), deferInputDels inKeys outer idx d = .ok d' →
      ∃ ds, d' = ds ++ d ∧ ∀ k ∈ ds, k ∈ inKeys := by
  induction outer with
  | nil =>
    intro idx d d' h
    simp only [deferInputDels, Except.ok.injEq] at h
    exact ⟨[], by simp [h], by simp⟩
  | cons o rest ih =>
    intro idx d d' h
    simp only [deferInputDels] at h
    cases hk : inKeys[idx]? with
    | none => simp [hk] at h
    | some key =>
      simp only [hk] at h
      obtain ⟨ds, h1, h2⟩ := ih _ _ _ h
      refine ⟨ds ++ [key], by simp [h1], ?_⟩
      intro k hmem
      rcases List.mem_append.1 hmem with hin | hin
      · exact h2 k hin
      · simp only [List.mem_singleton] at hin
        subst hin
        exact List.getElem?_mem hk

/-! ## The blocks of a component step -/

theorem connectorBlock_ok (env : Env) (param : TriggerAsyncPipelineWorkflowRequest)
    (dataPoint : UsageMetricData) (comp : Component) (compInputs : List Struct) (f f' : Frame)
    (h : connectorBlock env param dataPoint comp compInputs f = .ok f') :
    (comp.resourceName = "" ∧ f' = f) ∨
    (comp.resourceName ≠ "" ∧ ∃ inKeys w1 deferred1 result w2 outputs cache,
      SetBlob f.world compInputs = (.ok inKeys, w1) ∧
      deferInputDels inKeys f.result.outputBlobRedisKeys 0 f.deferred = .ok deferred1 ∧
      ExecuteActivity env w1 (activityRequest env param comp inKeys) = (.ok result, w2) ∧
      GetBlob w2.redis result.outputBlobRedisKeys = .ok outputs ∧
      storeRecords comp.id outputs 0 f.cache = .ok cache ∧
      f' = { f with world := w2, deferred := result.outputBlobRedisKeys.reverse ++ deferred1,
                    cache := cache }) := by
  unfold connectorBlock at h
  by_cases hr : comp.resourceName = ""
  · left
    simp only [hr, ne_eq, not_true_eq_false, if_false, Except.ok.injEq] at h
    exact ⟨hr, h.symm⟩
  · right
    refine ⟨hr, ?_⟩
    simp only [ne_eq, hr, not_false_eq_true, if_true] at h
    cases hsb : SetBlob f.world compInputs with
    | mk r w1 =>
      rw [hsb] at h
      cases r with
      | error e => simp at h
      | ok inKeys =>
        simp only at h
        cases hd : deferInputDels inKeys f.result.outputBlobRedisKeys 0 f.deferred with
        | error flt => cases flt <;> simp [hd] at h
        | ok deferred1 =>
          simp only [hd] at h
          cases hea : ExecuteActivity env w1 (activityRequest env param comp inKeys) with
          | mk r2 w2 =>
            rw [hea] at h
            cases r2 with
            | error e => simp at h
            | ok result =>
              simp only at h
              cases hg : GetBlob w2.redis result.outputBlobRedisKeys with
              | error e => simp [hg] at h
              | ok outputs =>
                simp only [hg] at h
                cases hs : storeRecords comp.id outputs 0 f.cache with
                | error flt => cases flt <;> simp [hs] at h
                | ok cache =>
                  simp only [hs, Except.ok.injEq] at h
                  exact ⟨inKeys, w1, deferred1, result, w2, outputs, cache, rfl, hd, hea, hg,
                    hs, h.symm⟩

theorem endBlock_ok (comp : Component) (compInputs : List Struct) (f f' : Frame)
    (h : endBlock comp compInputs f = .ok f') :
    (comp.definitionName ≠ endOperator ∧ f' = f) ∨
    (comp.definitionName = endOperator ∧ ∃ cache,
      storeRecords comp.id compInputs 0 f.cache = .ok cache ∧
      f' = { f with responseCompId := comp.id, cache := cache }) := by
  unfold endBlock at h
  by_cases hd : comp.definitionName = endOperator
  · right
    refine ⟨hd, ?_⟩
    simp only [hd, if_true] at h
    cases hs : storeRecords comp.id compInputs 0 f.cache with
    | error flt => cases flt <;> simp [hs] at h
    | ok cache =>
      simp only [hs, Except.ok.injEq] at h
      exact ⟨cache, rfl, h.symm⟩
  · left
    simp only [hd, if_false, Except.ok.injEq] at h
    exact ⟨hd, h.symm⟩

theorem componentStep_ok (env : Env) (param : TriggerAsyncPipelineWorkflowRequest)
    (dataPoint : UsageMetricData) (batchSize : Nat) (comp : Component) (f f' : Frame)
    (h : componentStep env param dataPoint batchSize comp f = .ok f') :
    ∃ compInputs f1, renderLoop env comp f.cache 0 batchSize [] = .ok compInputs ∧
      connectorBlock env param dataPoint comp compInputs f = .ok f1 ∧
      endBlock comp compInputs f1 = .ok f' := by
  unfold componentStep at h
  cases hr : renderLoop env comp f.cache 0 batchSize [] with
  | error flt => cases flt <;> simp [hr] at h
  | ok compInputs =>
    simp only [hr] at h
    cases hc : connectorBlock env param dataPoint comp compInputs f with
    | error stop => simp [hc] at h
    | ok f1 =>
      simp only [hc] at h
      exact ⟨compInputs, f1, rfl, hc, h⟩

theorem Frame.Grows.refl (f : Frame) : f.Grows f :=
  ⟨rfl, rfl, rfl, rfl, ⟨[], by simp, by simp⟩, ⟨[], by simp, by simp⟩⟩

theorem Frame.Grows.trans {f g k : Frame} (h1 : f.Grows g) (h2 : g.Grows k) : f.Grows k := by
  obtain ⟨ws1, hs1, hw1⟩ := h1.sets
  obtain ⟨ws2, hs2, hw2⟩ := h2.sets
  obtain ⟨ds1, hd1, hk1⟩ := h1.deferred
  obtain ⟨ds2, hd2, hk2⟩ := h2.deferred
  refine ⟨h2.dataPoints.trans h1.dataPoints, h2.rejects.trans h1.rejects,
    h2.result.trans h1.result, h2.cacheLength.trans h1.cacheLength,
    ⟨ws1 ++ ws2, by rw [hs2, hs1, List.append_assoc], ?_⟩,
    ⟨ds2 ++ ds1, by rw [hd2, hd1, List.append_assoc], ?_⟩⟩
  · intro e he
    rcases List.mem_append.1 he with h | h
    · exact hw1 e h
    · exact hw2 e h
  · intro e he
    rcases List.mem_append.1 he with h | h
    · exact hk2 e h
    · exact hk1 e h

theorem connectorBlock_grows (env : Env) (param : TriggerAsyncPipelineWorkflowRequest)
    (dataPoint : UsageMetricData) (comp : Component) (compInputs : List Struct) (f f' : Frame)
    (h : connectorBlock env param dataPoint comp compInputs f = .ok f') : f.Grows f' := by
  rcases connectorBlock_ok env param dataPoint comp compInputs f f' h with
    ⟨_, rfl⟩ | ⟨_, inKeys, w1, deferred1, result, w2, outputs, cache, hsb, hd, hea, _, hs, rfl⟩
  · exact Frame.Grows.refl _
  · obtain ⟨_, a2, a3, ws1, a4, a5⟩ := SetBlob_world f.world compInputs
    have hfst : (SetBlob f.world compInputs).1 = .ok inKeys := by rw [hsb]
    have hsnd : (SetBlob f.world compInputs).2 = w1 := by rw [hsb]
    rw [hsnd] at a2 a3 a4
    obtain ⟨_, b2, b3, ⟨ws2, b4, b5⟩, b6⟩ := ExecuteActivity_ok env w1 w2 _ result hea
    obtain ⟨ds, c1, c2⟩ := deferInputDels_ok _ _ _ _ _ hd
    refine ⟨b2.trans a2, b3.trans a3, rfl, storeRecords_length _ _ _ _ _ hs,
      ⟨ws1 ++ ws2, by simp only; rw [b4, a4, List.append_assoc], ?_⟩,
      ⟨result.outputBlobRedisKeys.reverse ++ ds, by simp only; rw [c1, List.append_assoc], ?_⟩⟩
    · intro e he
      rcases List.mem_append.1 he with h | h
      · exact a5 e h
      · exact b5 e h
    · intro k hk
      rcases List.mem_append.1 hk with h | h
      · exact b6 k (List.mem_reverse.1 h)
      · exact SetBlob_keys_family _ _ _ hfst k (c2 k h)

theorem endBlock_grows (comp : Component) (compInputs : List Struct) (f f' : Frame)
    (h : endBlock comp compInputs f = .ok f') : f.Grows f' := by
  rcases endBlock_ok comp compInputs f f' h with ⟨_, rfl⟩ | ⟨_, cache, hs, rfl⟩
  · exact Frame.Grows.refl _
  · exact ⟨rfl, rfl, rfl, storeRecords_length _ _ _ _ _ hs, ⟨[], by simp, by simp⟩,
      ⟨[], by simp, by simp⟩⟩

theorem componentStep_grows (env : Env) (param : TriggerAsyncPipelineWorkflowRequest)
    (dataPoint : UsageMetricData) (batchSize : Nat) (comp : Component) (f f' : Frame)
    (h : componentStep env param dataPoint batchSize comp f = .ok f') : f.Grows f' := by
  obtain ⟨compInputs, f1, _, hc, he⟩ := componentStep_ok env param dataPoint batchSize comp f f' h
  exact (connectorBlock_grows env param dataPoint comp compInputs f f1 hc).trans
    (endBlock_grows comp compInputs f1 f' he)

theorem runComponents_grows (env : Env) (param : TriggerAsyncPipelineWorkflowRequest)
    (dataPoint : UsageMetricData) (batchSize : Nat) (comps : List Component) :
    ∀ (f f' : Frame), runComponents env param dataPoint batchSize comps f = .ok f' →
      f.Grows f' := by
  induction comps with
  | nil =>
    intro f f' h
    simp only [runComponents, Except.ok.injEq] at h
    subst h
    exact Frame.Grows.refl _
  | cons comp rest ih =>
    intro f f' h
    simp only [runComponents] at h
    cases hc : componentStep env param dataPoint batchSize comp f with
    | error stop => simp [hc] at h
    | ok f1 =>
      simp only [hc] at h
      exact (componentStep_grows env param dataPoint batchSize comp f f1 hc).trans (ih f1 f' h)

theorem renderLoop_bound (env : Env) (comp : Component) (cache : List Struct) (n : Nat)
    (out : List Struct) (h : renderLoop env comp cache 0 n [] = .ok out) :
    n ≤ cache.length := by
  obtain ⟨l, _, h2, h3⟩ := (renderLoop_ok_iff env comp cache n 0 [] out).1 h
  cases n with
  | zero => omega
  | succ n =>
    have hlt : n < l.length := by omega
    have := h3 n l[n] (List.getElem?_eq_getElem hlt)
    simp only [Nat.zero_add, renderItem, protojsonMarshal, jsonUnmarshal] at this
    rcases Nat.lt_or_ge n cache.length with hc | hc
    · omega
    · simp [List.getElem?_eq_none hc] at this

/-- C5, amended: for every component `c` with a non-empty resource name that is not the end
operator, a step that completes has rendered the inputs, written them with `SetBlob`, run
the activity and read its outputs with `GetBlob`; afterwards the cache has its size, at
least `N` items and at least as many as the activity returned records, and every item cache
`i` for which the activity returned a record maps `c.id` to `outputs[i]`, while the entries
of every other component id are unchanged. -/
theorem componentStep_cache (env : Env) (param : TriggerAsyncPipelineWorkflowRequest)
    (dataPoint : UsageMetricData) (N : Nat) (c : Component) (f f' : Frame)
    (hres : c.resourceName ≠ "") (hend : c.definitionName ≠ endOperator)
    (h : componentStep env param dataPoint N c f = .ok f') :
    ∃ compInputs inKeys w1 result w2 outputs,
      renderLoop env c f.cache 0 N [] = .ok compInputs ∧
      SetBlob f.world compInputs = (.ok inKeys, w1) ∧
      ExecuteActivity env w1 (activityRequest env param c inKeys) = (.ok result, w2) ∧
      GetBlob w2.redis result.outputBlobRedisKeys = .ok outputs ∧
      f'.cache.length = f.cache.length ∧ N ≤ f'.cache.length ∧
      outputs.length ≤ f'.cache.length ∧
      ∀ (i : Nat) (item' : Struct), f'.cache[i]? = some item' →
        ∃ item, f.cache[i]? = some item ∧
          (∀ m, outputs[i]? = some m → mapGet item' c.id = some (.struct m)) ∧
          (∀ k, k ≠ c.id → mapGet item' k = mapGet item k) := by
  obtain ⟨compInputs, f1, hr, hc, he⟩ := componentStep_ok env param dataPoint N c f f' h
  rcases endBlock_ok c compInputs f1 f' he with ⟨_, rfl⟩ | ⟨hd, _⟩
  · rcases connectorBlock_ok env param dataPoint c compInputs f f' hc with
      ⟨hn, _⟩ | ⟨_, inKeys, w1, deferred1, result, w2, outputs, cache, hsb, _, hea, hg, hs, rfl⟩
    · exact absurd hn hres
    · have hlen := storeRecords_length _ _ _ _ _ hs
      refine ⟨compInputs, inKeys, w1, result, w2, outputs, hr, hsb, hea, hg, hlen, ?_, ?_, ?_⟩
      · simp only
        rw [hlen]
        exact renderLoop_bound env c f.cache N compInputs hr
      · simp only
        rw [hlen]
        rcases storeRecords_bound _ _ _ _ _ hs with h0 | h0
        · simp [h0]
        · omega
      · intro i item' hi
        obtain ⟨item, h1, h2, _, h4, _⟩ := storeRecords_get _ _ _ _ _ hs i item' hi
        exact ⟨item, h1, fun m hm => h4 m (Nat.zero_le _) (by simpa using hm), h2⟩
  · exact absurd hd hend

/-- C5, amended, at the step of the connector `k` (configuration `{"v": "${start.body}"}`,
echo connector) on a batch of one item. -/
theorem componentStep_cache_witness :
    (echoComp [("v", .str "${start.body}")]).resourceName ≠ "" ∧
    (echoComp [("v", .str "${start.body}")]).definitionName ≠ endOperator ∧
    componentStep (chainEnv echoConnector "t1") (requestOf [] ["in0"]) demoDataPoint 1
      (echoComp [("v", .str "${start.body}")]) seededFrame = .ok echoedFrame ∧
    ∃ compInputs inKeys w1 result w2 outputs,
      renderLoop (chainEnv echoConnector "t1") (echoComp [("v", .str "${start.body}")])
        seededFrame.cache 0 1 [] = .ok compInputs ∧
      SetBlob seededFrame.world compInputs = (.ok inKeys, w1) ∧
      ExecuteActivity (chainEnv echoConnector "t1") w1
        (activityRequest (chainEnv echoConnector "t1") (requestOf [] ["in0"])
          (echoComp [("v", .str "${start.body}")]) inKeys) = (.ok result, w2) ∧
      GetBlob w2.redis result.outputBlobRedisKeys = .ok outputs ∧
      echoedFrame.cache.length = seededFrame.cache.length ∧ 1 ≤ echoedFrame.cache.length ∧
      outputs.length ≤ echoedFrame.cache.length ∧
      ∀ (i : Nat) (item' : Struct), echoedFrame.cache[i]? = some item' →
        ∃ item, seededFrame.cache[i]? = some item ∧
          (∀ m, outputs[i]? = some m →
            mapGet item' (echoComp [("v", .str "${start.body}")]).id = some (.struct m)) ∧
          (∀ k, k ≠ (echoComp [("v", .str "${start.body}")]).id →
            mapGet item' k = mapGet item k) :=
  ⟨by decide, by decide, rfl,
    componentStep_cache (chainEnv echoConnector "t1") (requestOf [] ["in0"]) demoDataPoint 1
      (echoComp [("v", .str "${start.body}")]) seededFrame echoedFrame (by decide) (by decide)
      rfl⟩

/-- C5 as stated fails at two inputs, each a batch of one item whose cache holds the input
`{"x":1}`. (1) The component is an end operator that names the resource `echo`, and the
activity returns the record `{"y":2}` (read back from the output key): after the step the
item cache maps the component id to the rendered input `{"body":{"x":1}}`, not to `{"y":2}`.
(2) The component is the connector `k` and the activity returns no record: the step
completes and the item cache has no entry for `k`. -/
theorem componentStep_cache_counterexample :
    (∃ f', componentStep (chainEnv (constConnector [[("y", .num 2)]]) "t1")
        (requestOf [] ["in0"]) demoDataPoint 1 endWithResource seededFrame = .ok f' ∧
      f'.world.calls.map (fun req => req.name) = ["echo"] ∧
      GetBlob f'.world.redis ["async_connector_blob:u2:0"] = .ok [[("y", .num 2)]] ∧
      f'.cache.map (fun item => mapGet item "end") =
        [some (.struct [("body", .struct [("x", .num 1)])])]) ∧
    (∃ f', componentStep (chainEnv (constConnector []) "t1")
        (requestOf [] ["in0"]) demoDataPoint 1 (echoComp [("v", .str "${start.body}")])
        seededFrame = .ok f' ∧
      f'.world.calls.map (fun req => req.name) = ["echo"] ∧
      f'.cache.map (fun item => mapGet item "k") = [none]) :=
  ⟨⟨_, rfl, by decide, by decide, by decide⟩, ⟨_, rfl, by decide, by decide⟩⟩

/-! ## The component loop -/

theorem connectorBlock_calls (env : Env) (param : TriggerAsyncPipelineWorkflowRequest)
    (dataPoint : UsageMetricData) (comp : Component) (compInputs : List Struct) (f f' : Frame)
    (h : connectorBlock env param dataPoint comp compInputs f = .ok f') :
    ∃ reqs, f'.world.calls = f.world.calls ++ reqs ∧
      List.Forall₂ (fun c req => req.name = c.resourceName ∧
          req.inputBlobRedisKeys.length = compInputs.length)
        ([comp].filter (fun c => decide (c.resourceName ≠ ""))) reqs := by
  rcases connectorBlock_ok env param dataPoint comp compInputs f f' h with
    ⟨hn, rfl⟩ | ⟨hn, inKeys, w1, deferred1, result, w2, outputs, cache, hsb, _, hea, _, _, rfl⟩
  · exact ⟨[], by simp, by simp [hn]⟩
  · obtain ⟨a1, _, _, _⟩ := SetBlob_world f.world compInputs
    have hfst : (SetBlob f.world compInputs).1 = .ok inKeys := by rw [hsb]
    have hsnd : (SetBlob f.world compInputs).2 = w1 := by rw [hsb]
    rw [hsnd] at a1
    obtain ⟨b1, _⟩ := ExecuteActivity_ok env w1 w2 _ result hea
    refine ⟨[activityRequest env param comp inKeys], by simp only; rw [b1, a1], ?_⟩
    simp only [ne_eq, hn, not_false_eq_true, decide_True, List.filter_cons_of_pos,
      List.filter_nil]
    exact List.Forall₂.cons ⟨rfl, SetBlob_keys_length _ _ _ hfst⟩ List.Forall₂.nil

theorem endBlock_world (comp : Component) (compInputs : List Struct) (f f' : Frame)
    (h : endBlock comp compInputs f = .ok f') : f'.world = f.world ∧ f'.deferred = f.deferred := by
  rcases endBlock_ok comp compInputs f f' h with ⟨_, rfl⟩ | ⟨_, cache, _, rfl⟩
  · exact ⟨rfl, rfl⟩
  · exact ⟨rfl, rfl⟩

theorem componentStep_calls (env : Env) (param : TriggerAsyncPipelineWorkflowRequest)
    (dataPoint : UsageMetricData) (batchSize : Nat) (comp : Component) (f f' : Frame)
    (h : componentStep env param dataPoint batchSize comp f = .ok f') :
    ∃ reqs, f'.world.calls = f.world.calls ++ reqs ∧
      List.Forall₂ (fun c req => req.name = c.resourceName ∧
          req.inputBlobRedisKeys.length = batchSize)
        ([comp].filter (fun c => decide (c.resourceName ≠ ""))) reqs := by
  obtain ⟨compInputs, f1, hr, hc, he⟩ := componentStep_ok env param dataPoint batchSize comp f f' h
  obtain ⟨reqs, h1, h2⟩ := connectorBlock_calls env param dataPoint comp compInputs f f1 hc
  rw [renderLoop_length env comp f.cache batchSize compInputs hr] at h2
  exact ⟨reqs, by rw [(endBlock_world comp compInputs f1 f' he).1, h1], h2⟩

theorem runComponents_calls (env : Env) (param : TriggerAsyncPipelineWorkflowRequest)
    (dataPoint : UsageMetricData) (batchSize : Nat) (comps : List Component) :
    ∀ (f f' : Frame), runComponents env param dataPoint batchSize comps f = .ok f' →
      ∃ reqs, f'.world.calls = f.world.calls ++ reqs ∧
        List.Forall₂ (fun c req => req.name = c.resourceName ∧
            req.inputBlobRedisKeys.length = batchSize)
          (comps.filter (fun c => decide (c.resourceName ≠ ""))) reqs := by
  induction comps with
  | nil =>
    intro f f' h
    simp only [runComponents, Except.ok.injEq] at h
    subst h
    exact ⟨[], by simp, by simp⟩
  | cons comp rest ih =>
    intro f f' h
    simp only [runComponents] at h
    cases hc : componentStep env param dataPoint batchSize comp f with
    | error stop => simp [hc] at h
    | ok f1 =>
      simp only [hc] at h
      obtain ⟨reqs1, a1, a2⟩ := componentStep_calls env param dataPoint batchSize comp f f1 hc
      obtain ⟨reqs2, b1, b2⟩ := ih f1 f' h
      refine ⟨reqs1 ++ reqs2, by rw [b1, a1, List.append_assoc], ?_⟩
      have : (comp :: rest).filter (fun c => decide (c.resourceName ≠ "")) =
          [comp].filter (fun c => decide (c.resourceName ≠ "")) ++
            rest.filter (fun c => decide (c.resourceName ≠ "")) := by
        rw [← List.filter_append]
        rfl
      rw [this]
      exact List.rel_append a2 b2

/-! ## From the start of the workflow to its return -/

theorem runToOutputs_ok (env : Env) (param : TriggerAsyncPipelineWorkflowRequest) (w : World)
    (dataPoint : UsageMetricData) (N : Nat) (f : Frame)
    (h : runToOutputs env param w = .ok (dataPoint, N, f)) :
    ∃ dag first rest pipelineInputs inputs cache,
      env.GenerateDAG param.pipeline.components = .ok dag ∧
      env.TopoloicalSort dag = .ok (first :: rest) ∧
      GetBlob w.redis param.pipelineInputBlobRedisKeys = .ok pipelineInputs ∧
      N = pipelineInputs.length ∧
      wrapInputs pipelineInputs = .ok inputs ∧
      seedCache (first :: rest) inputs = .ok cache ∧
      runComponents env param dataPoint N rest
        { world := w, cache := cache, responseCompId := "", result := ⟨[]⟩, deferred := [] } =
          .ok f := by
  unfold runToOutputs at h
  simp only at h
  cases ho : (splitSlash param.pipeline.owner.data [])[1]? with
  | none => simp [ho] at h
  | some ownerUID =>
    simp only [ho] at h
    cases hg : env.GenerateDAG param.pipeline.components with
    | error e => simp [hg] at h
    | ok dag =>
      simp only [hg] at h
      cases ht : env.TopoloicalSort dag with
      | error e => simp [ht] at h
      | ok orderedComp =>
        simp only [ht] at h
        cases hb : GetBlob w.redis param.pipelineInputBlobRedisKeys with
        | error e => simp [hb] at h
        | ok pipelineInputs =>
          simp only [hb] at h
          cases hw : wrapInputs pipelineInputs with
          | error e => simp [hw] at h
          | ok inputs =>
            simp only [hw] at h
            cases hs : seedCache orderedComp inputs with
            | error flt => cases flt <;> simp [hs] at h
            | ok cache =>
              simp only [hs] at h
              cases orderedComp with
              | nil => simp at h
              | cons first rest =>
                simp only at h
                cases hrun : runComponents env param
                    { ownerUID := ownerUID, pipelineID := param.pipeline.id
                      pipelineUID := param.pipeline.uid
                      pipelineTriggerUID := env.workflowID, status := .unspecified }
                    pipelineInputs.length rest
                    { world := w, cache := cache, responseCompId := "", result := ⟨[]⟩
                      deferred := [] } with
                | error stop => simp [hrun] at h
                | ok f1 =>
                  simp only [hrun, Except.ok.injEq, Prod.mk.injEq] at h
                  obtain ⟨h1, h2, h3⟩ := h
                  subst h1
                  subst h2
                  subst h3
                  exact ⟨dag, first, rest, pipelineInputs, inputs, cache, rfl, ht, rfl, rfl,
                    hw, hs, hrun⟩

theorem writeOutputs_world (wid : String) (outs : List Struct) :
    ∀ (idx : Nat) (w : World),
      (writeOutputs wid outs idx w).1 = .ok () ∧
      (writeOutputs wid outs idx w).2.calls = w.calls ∧
      (writeOutputs wid outs idx w).2.dataPoints = w.dataPoints ∧
      (writeOutputs wid outs idx w).2.redis.rejects = w.redis.rejects ∧
      (writeOutputs wid outs idx w).2.sets =
        w.sets ++ (List.range' idx outs.length).zipWith
          (fun i out => (pipelineResponseKey wid i, Blob.json (.struct out))) outs := by
  induction outs with
  | nil => intro idx w; simp [writeOutputs]
  | cons out rest ih =>
    intro idx w
    simp only [writeOutputs, protojsonMarshal]
    obtain ⟨h1, h2, h3, h4, h5⟩ := ih (idx + 1)
      (w.redisSet (pipelineResponseKey wid idx) (.json (.struct out)))
    refine ⟨h1, h2, h3, ?_, ?_⟩
    · rw [h4]
      simp only [World.redisSet, Redis.Set]
      split <;> rfl
    · rw [h5]
      simp [World.redisSet, List.range'_succ]

theorem runDeferred_fields (keys : List String) :
    ∀ (w : World), (runDeferred keys w).calls = w.calls ∧ (runDeferred keys w).sets = w.sets ∧
      (runDeferred keys w).dataPoints = w.dataPoints := by
  induction keys with
  | nil => intro w; exact ⟨rfl, rfl, rfl⟩
  | cons k rest ih =>
    intro w
    simp only [runDeferred]
    obtain ⟨h1, h2, h3⟩ := ih (w.redisDel k)
    exact ⟨h1, h2, h3⟩

theorem finish_calls (env : Env) (dataPoint : UsageMetricData) (batchSize : Nat) (f : Frame) :
    (finish env dataPoint batchSize f).2.world.calls = f.world.calls := by
  unfold finish
  cases hb : buildOutputs batchSize f.cache f.responseCompId with
  | error flt => cases flt <;> rfl
  | ok outs =>
    simp only
    obtain ⟨h1, h2, _⟩ := writeOutputs_world env.workflowID outs 0 f.world
    cases hw : writeOutputs env.workflowID outs 0 f.world with
    | mk r w1 =>
      rw [hw] at h1 h2
      simp only at h1 h2
      subst h1
      simpa [World.writeNewDataPoint] using h2

/-- C4, amended: in every run in which the component loop completes (rendering and
activities succeed, the outputs of every activity are read back from the blob store and no
activity returns more records than the batch has items, so the run reaches the construction
of the pipeline outputs), the sequence of activity invocations made by
`TriggerAsyncPipelineWorkflow` is, in topological order, one invocation for each component
after index 0 whose resource name is non-empty and none for any other component: each
carries exactly `N` input blob keys, `N` the size of the batch, and the name of its
component; no end operator is needed. -/
theorem activity_invocations (env : Env) (param : TriggerAsyncPipelineWorkflowRequest)
    (w : World) (dataPoint : UsageMetricData) (N : Nat) (f : Frame)
    (h : runToOutputs env param w = .ok (dataPoint, N, f)) :
    ∃ dag orderedComp pipelineInputs reqs,
      env.GenerateDAG param.pipeline.components = .ok dag ∧
      env.TopoloicalSort dag = .ok orderedComp ∧
      GetBlob w.redis param.pipelineInputBlobRedisKeys = .ok pipelineInputs ∧
      N = pipelineInputs.length ∧
      (TriggerAsyncPipelineWorkflow env param w).2.calls = w.calls ++ reqs ∧
      List.Forall₂
        (fun c req => req.name = c.resourceName ∧ req.inputBlobRedisKeys.length = N)
        (orderedComp.tail.filter (fun c => decide (c.resourceName ≠ ""))) reqs := by
  obtain ⟨dag, first, rest, pipelineInputs, inputs, cache, h1, h2, h3, h4, _, _, hrun⟩ :=
    runToOutputs_ok env param w dataPoint N f h
  obtain ⟨reqs, hc, hall⟩ := runComponents_calls env param dataPoint N rest _ f hrun
  refine ⟨dag, first :: rest, pipelineInputs, reqs, h1, h2, h3, h4, ?_, hall⟩
  unfold TriggerAsyncPipelineWorkflow
  rw [h]
  simp only
  rw [(runDeferred_fields _ _).1, finish_calls, hc]

/-- C4, amended, at scenario S3 (the start operator and the connector `k`, no end operator,
the inputs `{"x":7}` and `{"x":8}`): the component loop completes, and the invocations are
the one of `k`, with two input keys. -/
theorem activity_invocations_witness :
    runToOutputs (chainEnv echoConnector "t1") missingEndRequest twoInputsWorld =
      .ok (demoDataPoint, 2, missingEndFrame) ∧
    ∃ dag orderedComp pipelineInputs reqs,
      (chainEnv echoConnector "t1").GenerateDAG missingEndRequest.pipeline.components =
        .ok dag ∧
      (chainEnv echoConnector "t1").TopoloicalSort dag = .ok orderedComp ∧
      GetBlob twoInputsWorld.redis missingEndRequest.pipelineInputBlobRedisKeys =
        .ok pipelineInputs ∧
      2 = pipelineInputs.length ∧
      (TriggerAsyncPipelineWorkflow (chainEnv echoConnector "t1") missingEndRequest
        twoInputsWorld).2.calls = twoInputsWorld.calls ++ reqs ∧
      List.Forall₂
        (fun c req => req.name = c.resourceName ∧ req.inputBlobRedisKeys.length = 2)
        (orderedComp.tail.filter (fun c => decide (c.resourceName ≠ ""))) reqs :=
  ⟨rfl, activity_invocations (chainEnv echoConnector "t1") missingEndRequest twoInputsWorld
    demoDataPoint 2 missingEndFrame rfl⟩

/-- C4 as stated fails when an activity returns more records than the batch has items. On
the order of the start operator and the connectors `k` (resource `echo`) and `k2` (resource
`echo2`), with the one input `{"x":1}` and a connector service that answers two records, the
rendering of the inputs of `k` succeeds and the activity of `k` succeeds, returning two
output keys; storing the second record in the cache of one item then panics (line 298), the
run ends there, and `echo2` is never invoked although `k2` has a non-empty resource name. -/
theorem activity_invocations_counterexample :
    renderLoop (chainEnv (constConnector [[("y", .num 1)], [("y", .num 2)]]) "t1")
        (echoComp [("v", .str "${start.body}")]) seededFrame.cache 0 1 [] =
      .ok [[("v", .struct [("x", .num 1)])]] ∧
    (ExecuteActivity (chainEnv (constConnector [[("y", .num 1)], [("y", .num 2)]]) "t1")
        (SetBlob oneInputWorld [[("v", .struct [("x", .num 1)])]]).2
        (activityRequest (chainEnv (constConnector [[("y", .num 1)], [("y", .num 2)]]) "t1")
          twoConnectorsRequest (echoComp [("v", .str "${start.body}")])
          ["async_connector_blob:u1:0"])).1 =
      .ok ⟨["async_connector_blob:u2:0", "async_connector_blob:u2:1"]⟩ ∧
    (TriggerAsyncPipelineWorkflow
        (chainEnv (constConnector [[("y", .num 1)], [("y", .num 2)]]) "t1")
        twoConnectorsRequest oneInputWorld).1 = .panicked "index out of range" ∧
    (TriggerAsyncPipelineWorkflow
        (chainEnv (constConnector [[("y", .num 1)], [("y", .num 2)]]) "t1")
        twoConnectorsRequest oneInputWorld).2.calls.map
          (fun req => (req.name, req.inputBlobRedisKeys)) =
      [("echo", ["async_connector_blob:u1:0"])] ∧
    (twoConnectorsRequest.pipeline.components.tail.filter
        (fun c => decide (c.resourceName ≠ ""))).map (fun c => c.resourceName) =
      ["echo", "echo2"] := by
  decide

/-! ## Exits of the workflow -/

theorem connectorBlock_error (env : Env) (param : TriggerAsyncPipelineWorkflowRequest)
    (dataPoint : UsageMetricData) (comp : Component) (compInputs : List Struct) (f f' : Frame)
    (out : Outcome)
    (h : connectorBlock env param dataPoint comp compInputs f = .error (out, f')) :
    out ≠ .returned none := by
  simp only [connectorBlock] at h
  repeat' split at h
  all_goals first
    | (simp only [errored, Except.error.injEq, Prod.mk.injEq] at h
       obtain ⟨h1, _⟩ := h
       rw [← h1]
       simp)
    | simp at h

theorem endBlock_error (comp : Component) (compInputs : List Struct) (f f' : Frame)
    (out : Outcome) (h : endBlock comp compInputs f = .error (out, f')) :
    out ≠ .returned none := by
  simp only [endBlock] at h
  repeat' split at h
  all_goals first
    | (simp only [errored, Except.error.injEq, Prod.mk.injEq] at h
       obtain ⟨h1, _⟩ := h
       rw [← h1]
       simp)
    | simp at h

theorem componentStep_error (env : Env) (param : TriggerAsyncPipelineWorkflowRequest)
    (dataPoint : UsageMetricData) (batchSize : Nat) (comp : Component) (f f' : Frame)
    (out : Outcome)
    (h : componentStep env param dataPoint batchSize comp f = .error (out, f')) :
    out ≠ .returned none := by
  unfold componentStep at h
  split at h
  · simp only [errored, Except.error.injEq, Prod.mk.injEq] at h
    rw [← h.1]
    simp
  · simp only [Except.error.injEq, Prod.mk.injEq] at h
    rw [← h.1]
    simp
  · split at h
    · rename_i stop hc
      simp only [Except.error.injEq] at h
      subst h
      exact connectorBlock_error _ _ _ _ _ _ _ _ hc
    · exact endBlock_error _ _ _ _ _ h

theorem runComponents_error (env : Env) (param : TriggerAsyncPipelineWorkflowRequest)
    (dataPoint : UsageMetricData) (batchSize : Nat) (comps : List Component) :
    ∀ (f f' : Frame) (out : Outcome),
      runComponents env param dataPoint batchSize comps f = .error (out, f') →
        out ≠ .returned none := by
  induction comps with
  | nil => intro f f' out h; simp [runComponents] at h
  | cons comp rest ih =>
    intro f f' out h
    simp only [runComponents] at h
    cases hc : componentStep env param dataPoint batchSize comp f with
    | error stop =>
      simp only [hc, Except.error.injEq] at h
      subst h
      exact componentStep_error _ _ _ _ _ _ _ _ hc
    | ok f1 =>
      simp only [hc] at h
      exact ih _ _ _ h

theorem runToOutputs_error (env : Env) (param : TriggerAsyncPipelineWorkflowRequest)
    (w : World) (f' : Frame) (out : Outcome)
    (h : runToOutputs env param w = .error (out, f')) : out ≠ .returned none := by
  unfold runToOutputs at h
  simp only at h
  repeat' split at h
  all_goals first
    | (simp only [errored, Except.error.injEq, Prod.mk.injEq] at h
       obtain ⟨h1, _⟩ := h
       rw [← h1]
       simp)
    | (rename_i stop hrun
       simp only [Except.error.injEq] at h
       subst h
       exact runComponents_error _ _ _ _ _ _ _ _ hrun)
    | simp at h

theorem returns_nil (env : Env) (param : TriggerAsyncPipelineWorkflowRequest) (w : World)
    (h : (TriggerAsyncPipelineWorkflow env param w).1 = .returned none) :
    ∃ dataPoint N f outs, runToOutputs env param w = .ok (dataPoint, N, f) ∧
      buildOutputs N f.cache f.responseCompId = .ok outs ∧
      (TriggerAsyncPipelineWorkflow env param w).2 =
        runDeferred f.deferred
          ((writeOutputs env.workflowID outs 0 f.world).2.writeNewDataPoint
            { dataPoint with status := .completed }) := by
  unfold TriggerAsyncPipelineWorkflow at h ⊢
  cases hr : runToOutputs env param w with
  | error stop =>
    obtain ⟨out, f'⟩ := stop
    rw [hr] at h
    simp only at h
    exact absurd h (runToOutputs_error env param w f' out hr)
  | ok x =>
    obtain ⟨dataPoint, N, f⟩ := x
    rw [hr] at h
    simp only at h ⊢
    unfold finish at h ⊢
    cases hb : buildOutputs N f.cache f.responseCompId with
    | error flt => cases flt <;> simp [hb] at h
    | ok outs =>
      have hw := (writeOutputs_world env.workflowID outs 0 f.world).1
      cases hwo : writeOutputs env.workflowID outs 0 f.world with
      | mk r w1 =>
        rw [hwo] at hw
        simp only at hw
        subst hw
        exact ⟨dataPoint, N, f, outs, rfl, hb, by simp [hb, hwo]⟩

/-! ## The pipeline outputs -/

theorem outputItem_ok_iff (cache : List Struct) (rid : String) (idx : Nat) (m : Struct) :
    outputItem cache rid idx = .ok m ↔
      ∃ item entry, cache[idx]? = some item ∧ mapGet item rid = some (.struct entry) ∧
        mapGet entry "body" = some (.struct m) := by
  unfold outputItem
  cases hc : cache[idx]? with
  | none => simp
  | some item =>
    cases hg : mapGet item rid with
    | none => simp [hg]
    | some v =>
      cases v with
      | struct entry =>
        cases hb : mapGet entry "body" with
        | none => simp [hg, hb, jsonMarshal, protojsonUnmarshal]
        | some b =>
          cases b <;> simp [hg, hb, jsonMarshal, protojsonUnmarshal]
      | null => simp [hg]
      | bool b => simp [hg]
      | num n => simp [hg]
      | str s => simp [hg]
      | list l => simp [hg]

theorem outputLoop_ok_iff (cache : List Struct) (rid : String) (n : Nat) :
    ∀ (idx : Nat) (acc out : List Struct),
      outputLoop cache rid idx n acc = .ok out ↔
        ∃ l, out = acc ++ l ∧ l.length = n ∧
          ∀ (i : Nat) (m : Struct), l[i]? = some m →
            outputItem cache rid (idx + i) = .ok m := by
  induction n with
  | zero =>
    intro idx acc out
    simp only [outputLoop, Except.ok.injEq]
    constructor
    · intro h
      exact ⟨[], by simp [h], rfl, by simp⟩
    · rintro ⟨l, h1, h2, _⟩
      have : l = [] := List.length_eq_zero.1 h2
      subst this
      simp [h1]
  | succ n ih =>
    intro idx acc out
    simp only [outputLoop]
    cases hr : outputItem cache rid idx with
    | error e =>
      constructor
      · intro h
        cases h
      · rintro ⟨l, _, hl, hall⟩
        cases l with
        | nil => simp at hl
        | cons m rest =>
          have := hall 0 m (by simp)
          simp [hr] at this
    | ok m =>
      simp only
      rw [ih]
      constructor
      · rintro ⟨l, h1, h2, h3⟩
        refine ⟨m :: l, by simp [h1], by simp [h2], ?_⟩
        intro i m' hm'
        cases i with
        | zero =>
          simp only [List.getElem?_cons_zero, Option.some.injEq] at hm'
          subst hm'
          simpa using hr
        | succ i =>
          simp only [List.getElem?_cons_succ] at hm'
          have := h3 i m' hm'
          rwa [show idx + 1 + i = idx + (i + 1) by omega] at this
      · rintro ⟨l, h1, h2, h3⟩
        cases l with
        | nil => simp at h2
        | cons m0 rest =>
          have h0 := h3 0 m0 (by simp)
          simp only [Nat.add_zero, hr, Except.ok.injEq] at h0
          subst h0
          refine ⟨rest, by simp [h1], by simpa using h2, ?_⟩
          intro i m' hm'
          have := h3 (i + 1) m' (by simpa using hm')
          rwa [show idx + (i + 1) = idx + 1 + i by omega] at this

theorem buildOutputs_ok (N : Nat) (cache : List Struct) (rid : String) (outs : List Struct)
    (h : buildOutputs N cache rid = .ok outs) :
    outs.length = N ∧ (rid = "" → ∀ out ∈ outs, out = []) ∧
      (rid ≠ "" → ∀ (i : Nat) (out : Struct), outs[i]? = some out →
        ∃ item entry, cache[i]? = some item ∧ mapGet item rid = some (.struct entry) ∧
          mapGet entry "body" = some (.struct out)) := by
  unfold buildOutputs at h
  by_cases hr : rid = ""
  · simp only [hr, if_true, Except.ok.injEq] at h
    subst h
    refine ⟨by simp, ?_, fun hne => absurd hr hne⟩
    intro _ out hout
    exact (List.mem_replicate.1 hout).2
  · simp only [hr, if_false] at h
    obtain ⟨l, h1, h2, h3⟩ := (outputLoop_ok_iff cache rid N 0 [] outs).1 h
    simp only [List.nil_append] at h1
    subst h1
    refine ⟨h2, fun he => absurd he hr, ?_⟩
    intro _ i out hi
    have := h3 i out hi
    rw [Nat.zero_add] at this
    exact (outputItem_ok_iff cache rid i out).1 this

/-! ## The response component -/

theorem componentStep_responseCompId (env : Env) (param : TriggerAsyncPipelineWorkflowRequest)
    (dataPoint : UsageMetricData) (batchSize : Nat) (comp : Component) (f f' : Frame)
    (h : componentStep env param dataPoint batchSize comp f = .ok f') :
    f'.responseCompId =
      if comp.definitionName = endOperator then comp.id else f.responseCompId := by
  obtain ⟨compInputs, f1, _, hc, he⟩ := componentStep_ok env param dataPoint batchSize comp f f' h
  have h1 : f1.responseCompId = f.responseCompId := by
    rcases connectorBlock_ok env param dataPoint comp compInputs f f1 hc with
      ⟨_, rfl⟩ | ⟨_, _, _, _, _, _, _, _, _, _, _, _, _, rfl⟩ <;> rfl
  rcases endBlock_ok comp compInputs f1 f' he with ⟨hd, rfl⟩ | ⟨hd, cache, _, rfl⟩
  · simp [hd, h1]
  · simp [hd]

theorem runComponents_append (env : Env) (param : TriggerAsyncPipelineWorkflowRequest)
    (dataPoint : UsageMetricData) (batchSize : Nat) (pre post : List Component) :
    ∀ (f f' : Frame), runComponents env param dataPoint batchSize (pre ++ post) f = .ok f' →
      ∃ f1, runComponents env param dataPoint batchSize pre f = .ok f1 ∧
        runComponents env param dataPoint batchSize post f1 = .ok f' := by
  induction pre with
  | nil => intro f f' h; exact ⟨f, rfl, h⟩
  | cons comp rest ih =>
    intro f f' h
    simp only [List.cons_append, runComponents] at h ⊢
    cases hc : componentStep env param dataPoint batchSize comp f with
    | error stop => simp [hc] at h
    | ok f0 =>
      simp only [hc] at h
      exact ih f0 f' h

theorem runComponents_no_end (env : Env) (param : TriggerAsyncPipelineWorkflowRequest)
    (dataPoint : UsageMetricData) (batchSize : Nat) (comps : List Component)
    (hno : ∀ c ∈ comps, c.definitionName ≠ endOperator) :
    ∀ (f f' : Frame), runComponents env param dataPoint batchSize comps f = .ok f' →
      f'.responseCompId = f.responseCompId := by
  induction comps with
  | nil =>
    intro f f' h
    simp only [runComponents, Except.ok.injEq] at h
    subst h
    rfl
  | cons comp rest ih =>
    intro f f' h
    simp only [runComponents] at h
    cases hc : componentStep env param dataPoint batchSize comp f with
    | error stop => simp [hc] at h
    | ok f1 =>
      simp only [hc] at h
      have h1 := componentStep_responseCompId env param dataPoint batchSize comp f f1 hc
      simp only [hno comp (List.mem_cons_self _ _), if_false] at h1
      exact (ih (fun c hcm => hno c (List.mem_cons_of_mem _ hcm)) f1 f' h).trans h1

theorem runComponents_last_end (env : Env) (param : TriggerAsyncPipelineWorkflowRequest)
    (dataPoint : UsageMetricData) (batchSize : Nat) (pre post : List Component) (e : Component)
    (he : e.definitionName = endOperator) (hno : ∀ c ∈ post, c.definitionName ≠ endOperator)
    (f f' : Frame)
    (h : runComponents env param dataPoint batchSize (pre ++ e :: post) f = .ok f') :
    f'.responseCompId = e.id := by
  obtain ⟨f1, _, h2⟩ := runComponents_append env param dataPoint batchSize pre (e :: post) f f' h
  simp only [runComponents] at h2
  cases hc : componentStep env param dataPoint batchSize e f1 with
  | error stop => simp [hc] at h2
  | ok f2 =>
    simp only [hc] at h2
    have h3 := componentStep_responseCompId env param dataPoint batchSize e f1 f2 hc
    simp only [he, if_true] at h3
    exact (runComponents_no_end env param dataPoint batchSize post hno f2 f' h2).trans h3

/-! ## The response writes -/

theorem writeOutputs_get_other (wid : String) (outs : List Struct) :
    ∀ (idx : Nat) (w : World) (k : String),
      (∀ i, i < outs.length → k ≠ pipelineResponseKey wid (idx + i)) →
      mapGet (writeOutputs wid outs idx w).2.redis.data k = mapGet w.redis.data k := by
  induction outs with
  | nil => intro idx w k _; simp [writeOutputs]
  | cons r rest ih =>
    intro idx w k hk
    simp only [writeOutputs, protojsonMarshal]
    rw [ih]
    · exact redisSet_get_other _ _ _ _ (by simpa using hk 0 (by simp))
    · intro i hi
      have := hk (i + 1) (by simpa using hi)
      rwa [show idx + (i + 1) = idx + 1 + i by omega] at this

theorem writeOutputs_get (wid : String) (outs : List Struct) :
    ∀ (idx : Nat) (w : World) (i : Nat) (m : Struct), outs[i]? = some m →
      w.redis.rejects (pipelineResponseKey wid (idx + i)) = false →
        mapGet (writeOutputs wid outs idx w).2.redis.data (pipelineResponseKey wid (idx + i)) =
          some (.json (.struct m)) := by
  induction outs with
  | nil => intro idx w i m hm; simp at hm
  | cons r rest ih =>
    intro idx w i m hm hacc
    simp only [writeOutputs, protojsonMarshal]
    cases i with
    | zero =>
      simp only [List.getElem?_cons_zero, Option.some.injEq] at hm
      subst hm
      rw [writeOutputs_get_other]
      · exact redisSet_get_self _ _ _ (by simpa using hacc)
      · intro j _ hEq
        have := pipelineResponseKey_injective wid _ _ hEq
        omega
    | succ i =>
      simp only [List.getElem?_cons_succ] at hm
      have := ih (idx + 1) (w.redisSet (pipelineResponseKey wid idx) (.json (.struct r))) i m hm
        (by
          rw [show idx + 1 + i = idx + (i + 1) by omega]
          simp only [World.redisSet, Redis.Set]
          split <;> exact hacc)
      rwa [show idx + 1 + i = idx + (i + 1) by omega] at this

theorem runDeferred_get_other (keys : List String) (k : String) (hk : ∀ k' ∈ keys, k' ≠ k) :
    ∀ (w : World), mapGet (runDeferred keys w).redis.data k = mapGet w.redis.data k := by
  induction keys with
  | nil => intro w; rfl
  | cons key rest ih =>
    intro w
    simp only [runDeferred]
    rw [ih (fun k' hk' => hk k' (List.mem_cons_of_mem _ hk'))]
    simp only [World.redisDel, Redis.Del]
    exact mapGet_mapDel_ne _ _ _ (fun e => hk key (List.mem_cons_self _ _) e.symm)

theorem zipWith_range'_getElem? {α β : Type} (g : Nat → α → β) (l : List α) :
    ∀ (idx i : Nat) (a : α), l[i]? = some a →
      ((List.range' idx l.length).zipWith g l)[i]? = some (g (idx + i) a) := by
  induction l with
  | nil => intro idx i a h; simp at h
  | cons x rest ih =>
    intro idx i a h
    cases i with
    | zero =>
      simp only [List.getElem?_cons_zero, Option.some.injEq] at h
      subst h
      simp [List.range'_succ]
    | succ i =>
      simp only [List.getElem?_cons_succ] at h
      have := ih (idx + 1) i a h
      simp only [List.length_cons, List.range'_succ, List.zipWith_cons_cons,
        List.getElem?_cons_succ]
      rwa [show idx + 1 + i = idx + (i + 1) by omega] at this

theorem filter_response_writes (wid : String) (before ws : List (String × Blob))
    (outs : List Struct) (hws : ∀ e ∈ ws, isResponseKey e.1 = false) :
    (before ++ ws ++ (List.range' 0 outs.length).zipWith
        (fun i out => (pipelineResponseKey wid i, Blob.json (.struct out))) outs).filter
        (fun e => isResponseKey e.1) =
      before.filter (fun e => isResponseKey e.1) ++ (List.range' 0 outs.length).zipWith
        (fun i out => (pipelineResponseKey wid i, Blob.json (.struct out))) outs := by
  simp only [List.filter_append]
  have h1 : ws.filter (fun e => isResponseKey e.1) = [] := by
    apply List.filter_eq_nil_iff.2
    intro e he
    simp [hws e he]
  have h2 : ((List.range' 0 outs.length).zipWith
      (fun i out => (pipelineResponseKey wid i, Blob.json (.struct out))) outs).filter
        (fun e => isResponseKey e.1) = (List.range' 0 outs.length).zipWith
      (fun i out => (pipelineResponseKey wid i, Blob.json (.struct out))) outs := by
    apply List.filter_eq_self.2
    intro e he
    obtain ⟨i, hi⟩ := List.getElem?_of_mem he
    rcases Nat.lt_or_ge i outs.length with hlt | hge
    · have := zipWith_range'_getElem?
        (fun i out => (pipelineResponseKey wid i, Blob.json (.struct out))) outs 0 i outs[i]
        (List.getElem?_eq_getElem hlt)
      rw [this] at hi
      simp only [Option.some.injEq] at hi
      rw [← hi]
      exact isResponseKey_pipelineResponseKey _ _
    · have hlen : ((List.range' 0 outs.length).zipWith
          (fun i out => (pipelineResponseKey wid i, Blob.json (.struct out))) outs).length ≤ i := by
        simp only [List.length_zipWith, List.length_range']
        omega
      rw [List.getElem?_eq_none hlen] at hi
      cases hi
  rw [h1, h2, List.append_nil]

theorem completes_of_outputs (env : Env) (param : TriggerAsyncPipelineWorkflowRequest)
    (w : World) (dataPoint : UsageMetricData) (N : Nat) (f : Frame) (outs : List Struct)
    (hrun : runToOutputs env param w = .ok (dataPoint, N, f))
    (hbuild : buildOutputs N f.cache f.responseCompId = .ok outs) :
    (TriggerAsyncPipelineWorkflow env param w).1 = .returned none ∧
      (TriggerAsyncPipelineWorkflow env param w).2 =
        runDeferred f.deferred
          ((writeOutputs env.workflowID outs 0 f.world).2.writeNewDataPoint
            { dataPoint with status := .completed }) := by
  unfold TriggerAsyncPipelineWorkflow
  rw [hrun]
  simp only
  unfold finish
  rw [hbuild]
  have hw := (writeOutputs_world env.workflowID outs 0 f.world).1
  cases hwo : writeOutputs env.workflowID outs 0 f.world with
  | mk r w1 =>
    rw [hwo] at hw
    simp only at hw
    subst hw
    simp [hwo]

theorem response_writes (env : Env) (param : TriggerAsyncPipelineWorkflowRequest)
    (w : World) (dataPoint : UsageMetricData) (N : Nat) (f : Frame) (outs : List Struct)
    (hrun : runToOutputs env param w = .ok (dataPoint, N, f))
    (hfinal : (TriggerAsyncPipelineWorkflow env param w).2 =
      runDeferred f.deferred
        ((writeOutputs env.workflowID outs 0 f.world).2.writeNewDataPoint
          { dataPoint with status := .completed })) :
    ∃ writes : List (String × Blob),
      (TriggerAsyncPipelineWorkflow env param w).2.sets.filter (fun e => isResponseKey e.1) =
        w.sets.filter (fun e => isResponseKey e.1) ++ writes ∧
      writes.length = outs.length ∧
      ∀ (i : Nat) (out : Struct), outs[i]? = some out →
        writes[i]? = some (pipelineResponseKey env.workflowID i, .json (.struct out)) ∧
        (w.redis.rejects (pipelineResponseKey env.workflowID i) = false →
          mapGet (TriggerAsyncPipelineWorkflow env param w).2.redis.data
            (pipelineResponseKey env.workflowID i) = some (.json (.struct out))) := by
  obtain ⟨dag, first, rest, pipelineInputs, inputs, cache, _, _, _, _, _, _, hloop⟩ :=
    runToOutputs_ok env param w dataPoint N f hrun
  have hgrow := runComponents_grows env param dataPoint _ rest _ f hloop
  obtain ⟨ws, hsets, hws⟩ := hgrow.sets
  obtain ⟨ds, hdef, hds⟩ := hgrow.deferred
  simp only [List.append_nil] at hdef hsets
  obtain ⟨_, _, _, hrej, hwsets⟩ := writeOutputs_world env.workflowID outs 0 f.world
  refine ⟨(List.range' 0 outs.length).zipWith
      (fun i out => (pipelineResponseKey env.workflowID i, Blob.json (.struct out))) outs,
    ?_, by simp, ?_⟩
  · rw [hfinal, (runDeferred_fields _ _).2.1]
    simp only [World.writeNewDataPoint]
    rw [hwsets, hsets]
    exact filter_response_writes env.workflowID w.sets ws outs hws
  · intro i out hi
    constructor
    · have := zipWith_range'_getElem?
        (fun i out => (pipelineResponseKey env.workflowID i, Blob.json (.struct out))) outs 0 i
        out hi
      simpa using this
    · intro hacc
      rw [hfinal, runDeferred_get_other]
      · simp only [World.writeNewDataPoint]
        have := writeOutputs_get env.workflowID outs 0 f.world i out hi (by
          rw [hgrow.rejects]
          simpa using hacc)
        simpa using this
      · intro k' hk' hEq
        rw [hdef] at hk'
        have := hds k' hk'
        rw [hEq, isResponseKey_pipelineResponseKey] at this
        cases this

/-- C1, amended: a run of `TriggerAsyncPipelineWorkflow` that returns nil on a batch of `N`
input records has passed the component loop, and its `Set` commands on keys of the family
`async_pipeline_response:` are exactly `N`, the `i`-th on the key
`async_pipeline_response:<trigger-id>:<i>`; after the run the store holds the value under
each key whose write it accepts. The value under key `i` is the empty record when no end
operator occurs after index 0 of the order or the last one has the empty id, and the field
`body` of item `i`'s cache entry for the last end operator after index 0 when its id is
non-empty. -/
theorem pipeline_responses (env : Env) (param : TriggerAsyncPipelineWorkflowRequest)
    (w : World) (h : (TriggerAsyncPipelineWorkflow env param w).1 = .returned none) :
    ∃ dag first rest pipelineInputs dataPoint f, ∃ (outs : List Struct)
        (writes : List (String × Blob)),
      env.GenerateDAG param.pipeline.components = .ok dag ∧
      env.TopoloicalSort dag = .ok (first :: rest) ∧
      GetBlob w.redis param.pipelineInputBlobRedisKeys = .ok pipelineInputs ∧
      runToOutputs env param w = .ok (dataPoint, pipelineInputs.length, f) ∧
      outs.length = pipelineInputs.length ∧
      (TriggerAsyncPipelineWorkflow env param w).2.sets.filter (fun e => isResponseKey e.1) =
        w.sets.filter (fun e => isResponseKey e.1) ++ writes ∧
      writes.length = pipelineInputs.length ∧
      (∀ (i : Nat) (out : Struct), outs[i]? = some out →
        writes[i]? = some (pipelineResponseKey env.workflowID i, .json (.struct out)) ∧
        (w.redis.rejects (pipelineResponseKey env.workflowID i) = false →
          mapGet (TriggerAsyncPipelineWorkflow env param w).2.redis.data
            (pipelineResponseKey env.workflowID i) = some (.json (.struct out)))) ∧
      ((∀ c ∈ rest, c.definitionName ≠ endOperator) → ∀ out ∈ outs, out = []) ∧
      (∀ pre e post, rest = pre ++ e :: post → e.definitionName = endOperator →
        (∀ c ∈ post, c.definitionName ≠ endOperator) →
          (e.id = "" → ∀ out ∈ outs, out = []) ∧
          (e.id ≠ "" → ∀ (i : Nat) (out : Struct), outs[i]? = some out →
            ∃ item entry, f.cache[i]? = some item ∧
              mapGet item e.id = some (.struct entry) ∧
              mapGet entry "body" = some (.struct out))) := by
  obtain ⟨dataPoint, N, f, outs, hrun, hbuild, hfinal⟩ := returns_nil env param w h
  obtain ⟨dag, first, rest, pipelineInputs, inputs, cache, h1, h2, h3, h4, _, _, hloop⟩ :=
    runToOutputs_ok env param w dataPoint N f hrun
  subst h4
  obtain ⟨hlen, hempty, hbody⟩ := buildOutputs_ok _ _ _ _ hbuild
  obtain ⟨writes, hw1, hw2, hw3⟩ := response_writes env param w dataPoint _ f outs hrun hfinal
  refine ⟨dag, first, rest, pipelineInputs, dataPoint, f, outs, writes, h1, h2, h3, hrun, hlen,
    hw1, hw2.trans hlen, hw3, ?_, ?_⟩
  · intro hno
    apply hempty
    rw [runComponents_no_end env param dataPoint _ rest hno _ f hloop]
  · intro pre e post hrest he hno
    subst hrest
    have hid := runComponents_last_end env param dataPoint _ pre post e he hno _ f hloop
    constructor
    · intro hempt
      apply hempty
      rw [hid, hempt]
    · intro hne i out hi
      have := hbody (by rw [hid]; exact hne) i out hi
      rwa [hid] at this

/-- C1, amended, at scenario S1 (the start operator, the end operator with configuration
`{"body": "${start.body}"}`, the input `{"x":1}`): the run returns nil. -/
theorem pipeline_responses_witness :
    (TriggerAsyncPipelineWorkflow (chainEnv echoConnector "t1") identityRequest
      oneInputWorld).1 = .returned none ∧
    ∃ dag first rest pipelineInputs dataPoint f, ∃ (outs : List Struct)
        (writes : List (String × Blob)),
      (chainEnv echoConnector "t1").GenerateDAG identityRequest.pipeline.components = .ok dag ∧
      (chainEnv echoConnector "t1").TopoloicalSort dag = .ok (first :: rest) ∧
      GetBlob oneInputWorld.redis identityRequest.pipelineInputBlobRedisKeys =
        .ok pipelineInputs ∧
      runToOutputs (chainEnv echoConnector "t1") identityRequest oneInputWorld =
        .ok (dataPoint, pipelineInputs.length, f) ∧
      outs.length = pipelineInputs.length ∧
      (TriggerAsyncPipelineWorkflow (chainEnv echoConnector "t1") identityRequest
          oneInputWorld).2.sets.filter (fun e => isResponseKey e.1) =
        oneInputWorld.sets.filter (fun e => isResponseKey e.1) ++ writes ∧
      writes.length = pipelineInputs.length ∧
      (∀ (i : Nat) (out : Struct), outs[i]? = some out →
        writes[i]? = some (pipelineResponseKey (chainEnv echoConnector "t1").workflowID i,
          .json (.struct out)) ∧
        (oneInputWorld.redis.rejects
            (pipelineResponseKey (chainEnv echoConnector "t1").workflowID i) = false →
          mapGet (TriggerAsyncPipelineWorkflow (chainEnv echoConnector "t1") identityRequest
              oneInputWorld).2.redis.data
            (pipelineResponseKey (chainEnv echoConnector "t1").workflowID i) =
              some (.json (.struct out)))) ∧
      ((∀ c ∈ rest, c.definitionName ≠ endOperator) → ∀ out ∈ outs, out = []) ∧
      (∀ pre e post, rest = pre ++ e :: post → e.definitionName = endOperator →
        (∀ c ∈ post, c.definitionName ≠ endOperator) →
          (e.id = "" → ∀ out ∈ outs, out = []) ∧
          (e.id ≠ "" → ∀ (i : Nat) (out : Struct), outs[i]? = some out →
            ∃ item entry, f.cache[i]? = some item ∧
              mapGet item e.id = some (.struct entry) ∧
              mapGet entry "body" = some (.struct out))) :=
  ⟨by decide,
    pipeline_responses (chainEnv echoConnector "t1") identityRequest oneInputWorld (by decide)⟩

/-- C1 as stated fails when the end operator has the empty id: on the order of the start
operator and an end operator with id `""` and configuration `{"body": "${start.body}"}`,
with the one input `{"x":1}`, the run returns nil and the only write, under
`async_pipeline_response:t1:0`, is the empty record, although an end operator occurs after
index 0 and the field `body` of the item's cache entry for it is `{"x":1}`. -/
theorem pipeline_responses_counterexample :
    (TriggerAsyncPipelineWorkflow (chainEnv echoConnector "t1")
      (requestOf [startComp, namelessEnd] ["in0"]) oneInputWorld).1 = .returned none ∧
    (TriggerAsyncPipelineWorkflow (chainEnv echoConnector "t1")
      (requestOf [startComp, namelessEnd] ["in0"]) oneInputWorld).2.sets =
        [("async_pipeline_response:t1:0", .json (.struct []))] ∧
    mapGet (TriggerAsyncPipelineWorkflow (chainEnv echoConnector "t1")
      (requestOf [startComp, namelessEnd] ["in0"]) oneInputWorld).2.redis.data
        "async_pipeline_response:t1:0" = some (.json (.struct [])) ∧
    ∃ dataPoint f, runToOutputs (chainEnv echoConnector "t1")
        (requestOf [startComp, namelessEnd] ["in0"]) oneInputWorld = .ok (dataPoint, 1, f) ∧
      f.cache.map (fun item => mapGet item namelessEnd.id) =
        [some (.struct [("body", .struct [("x", .num 1)])])] :=
  ⟨by decide, by decide, by decide, _, _, rfl, by decide⟩

/-! ## Scenario S1 -/

theorem wrapInputs_eq (inputs : List Struct) :
    wrapInputs inputs = .ok (inputs.map fun x => Blob.json (.struct [("body", .struct x)])) := by
  induction inputs with
  | nil => rfl
  | cons x rest ih => simp [wrapInputs, protojsonMarshal, ih]

theorem seedCache_eq (first : Component) (rest : List Component) (inputs : List Struct) :
    seedCache (first :: rest) (inputs.map fun x => Blob.json (.struct [("body", .struct x)])) =
      .ok (inputs.map fun x => [(first.id, .struct [("body", .struct x)])]) := by
  induction inputs with
  | nil => rfl
  | cons x rest ih => simp [seedCache, jsonUnmarshalMap, ih, mapSet, mapDel]

theorem RenderInput_whole_token (cache entry : Struct) (v : Value)
    (h1 : mapGet cache "start" = some (.struct entry)) (h2 : mapGet entry "body" = some v) :
    RenderInput cache (.struct [("body", .str "${start.body}")]) = .ok (.struct [("body", v)]) := by
  have hscan : scanPieces "${start.body}".data .plain [] [] = [.token "start.body".data] := by
    decide
  have hsplit : splitDot "start.body".data [] = ["start", "body"] := by decide
  simp [RenderInput, renderFields, renderString, hscan, resolveToken, hsplit, h1, walkPath, h2]

/-- C2: scenario S1 for every batch. For the order of a start operator with id `start` and
the end operator with configuration `{"body": "${start.body}"}`, a renderer that resolves
the whole-string token against the item cache with the type of the value, and the inputs
read from the input keys, the workflow seeds `cache[i][start.id]` with
`{"body": inputs[i]}`, returns nil, and the pipeline output written for item `i`, under
`async_pipeline_response:<trigger-id>:<i>`, is `inputs[i]`. -/
theorem identity_pipeline (env : Env) (param : TriggerAsyncPipelineWorkflowRequest)
    (w : World) (startC : Component) (dag : env.Dag) (ownerUID : String)
    (inputs : List Struct)
    (howner : (splitSlash param.pipeline.owner.data [])[1]? = some ownerUID)
    (hdag : env.GenerateDAG param.pipeline.components = .ok dag)
    (hsort : env.TopoloicalSort dag =
      .ok [startC, endComp [("body", .str "${start.body}")]])
    (hstart : startC.id = "start")
    (hrender : ∀ (cache entry : Struct) (v : Value),
      mapGet cache "start" = some (.struct entry) → mapGet entry "body" = some v →
        env.RenderInput (.struct [("body", .str "${start.body}")]) cache =
          .ok (.struct [("body", v)]))
    (hget : GetBlob w.redis param.pipelineInputBlobRedisKeys = .ok inputs) :
    (∃ blobs, wrapInputs inputs = .ok blobs ∧
      seedCache [startC, endComp [("body", .str "${start.body}")]] blobs =
        .ok (inputs.map fun input => [(startC.id, .struct [("body", .struct input)])])) ∧
    (TriggerAsyncPipelineWorkflow env param w).1 = .returned none ∧
    ∃ writes : List (String × Blob),
      (TriggerAsyncPipelineWorkflow env param w).2.sets.filter (fun e => isResponseKey e.1) =
        w.sets.filter (fun e => isResponseKey e.1) ++ writes ∧
      writes.length = inputs.length ∧
      ∀ (i : Nat) (input : Struct), inputs[i]? = some input →
        writes[i]? = some (pipelineResponseKey env.workflowID i, .json (.struct input)) ∧
        (w.redis.rejects (pipelineResponseKey env.workflowID i) = false →
          mapGet (TriggerAsyncPipelineWorkflow env param w).2.redis.data
            (pipelineResponseKey env.workflowID i) = some (.json (.struct input))) := by
  -- the seeded cache and the rendered inputs of the end operator
  let endC := endComp [("body", .str "${start.body}")]
  let cache0 : List Struct :=
    inputs.map fun input => [(startC.id, .struct [("body", .struct input)])]
  let compInputs : List Struct := inputs.map fun input => [("body", .struct input)]
  let dataPoint : UsageMetricData :=
    { ownerUID := ownerUID, pipelineID := param.pipeline.id, pipelineUID := param.pipeline.uid
      pipelineTriggerUID := env.workflowID, status := .unspecified }
  have hseed := seedCache_eq startC [endC] inputs
  have hrenderLoop : renderLoop env endC cache0 0 inputs.length [] = .ok compInputs := by
    rw [renderLoop_ok_iff]
    refine ⟨compInputs, by simp, by simp [compInputs], ?_⟩
    intro i m hm
    simp only [compInputs, List.getElem?_map, Option.map_eq_some'] at hm
    obtain ⟨input, hi, rfl⟩ := hm
    have hc : cache0[i]? = some [(startC.id, .struct [("body", .struct input)])] := by
      simp [cache0, List.getElem?_map, hi]
    have hr := hrender [(startC.id, .struct [("body", .struct input)])]
      [("body", .struct input)] (.struct input) (by simp [mapGet, hstart]) (by simp [mapGet])
    rw [Nat.zero_add]
    simp [renderItem, protojsonMarshal, jsonUnmarshal, hc, endC, endComp, hr, jsonMarshal,
      protojsonUnmarshal]
  obtain ⟨cache1, hstore⟩ := storeRecords_succeeds "end" compInputs 0 cache0
    (by simp [compInputs, cache0])
  have hstep : componentStep env param dataPoint inputs.length endC
      { world := w, cache := cache0, responseCompId := "", result := ⟨[]⟩, deferred := [] } =
      .ok { world := w, cache := cache1, responseCompId := "end", result := ⟨[]⟩,
            deferred := [] } := by
    simp only [componentStep, hrenderLoop, connectorBlock, endBlock]
    simp [endC, endComp, hstore]
  have hrun : runToOutputs env param w = .ok (dataPoint, inputs.length,
      { world := w, cache := cache1, responseCompId := "end", result := ⟨[]⟩,
        deferred := [] }) := by
    simp only [runToOutputs, howner, hdag, hsort, hget, wrapInputs_eq, hseed, runComponents,
      hstep]
  have hbuild : buildOutputs inputs.length cache1 "end" = .ok inputs := by
    simp only [buildOutputs, String.reduceEq, if_false]
    rw [outputLoop_ok_iff]
    refine ⟨inputs, by simp, rfl, ?_⟩
    intro i input hi
    rw [outputItem_ok_iff, Nat.zero_add]
    have hlen := storeRecords_length _ _ _ _ _ hstore
    have hlt : i < inputs.length := by
      rcases Nat.lt_or_ge i inputs.length with hl | hg
      · exact hl
      · simp [List.getElem?_eq_none hg] at hi
    have hlt1 : i < cache1.length := by
      rw [hlen]
      simpa [cache0] using hlt
    obtain ⟨item, _, _, _, hrec, _⟩ :=
      storeRecords_get _ _ _ _ _ hstore i cache1[i] (List.getElem?_eq_getElem hlt1)
    refine ⟨cache1[i], [("body", .struct input)], List.getElem?_eq_getElem hlt1, ?_, by
      simp [mapGet]⟩
    apply hrec _ (Nat.zero_le _)
    simp [compInputs, List.getElem?_map, hi]
  obtain ⟨hnil, hfinal⟩ := completes_of_outputs env param w dataPoint inputs.length _ inputs
    hrun hbuild
  exact ⟨⟨_, wrapInputs_eq inputs, hseed⟩, hnil,
    response_writes env param w dataPoint inputs.length _ inputs hrun hfinal⟩

/-- C2 at the input `[{"x":1}]` of scenario S1, with the renderer `RenderInput`: the output
written for item 0 is `{"x":1}`. -/
theorem identity_pipeline_witness :
    (∃ blobs, wrapInputs [[("x", .num 1)]] = .ok blobs ∧
      seedCache [startComp, endComp [("body", .str "${start.body}")]] blobs =
        .ok ([[("x", Value.num 1)]].map fun input =>
          [(startComp.id, .struct [("body", .struct input)])])) ∧
    (TriggerAsyncPipelineWorkflow (chainEnv echoConnector "t1") identityRequest
      oneInputWorld).1 = .returned none ∧
    ∃ writes : List (String × Blob),
      (TriggerAsyncPipelineWorkflow (chainEnv echoConnector "t1") identityRequest
          oneInputWorld).2.sets.filter (fun e => isResponseKey e.1) =
        oneInputWorld.sets.filter (fun e => isResponseKey e.1) ++ writes ∧
      writes.length = [[("x", Value.num 1)]].length ∧
      ∀ (i : Nat) (input : Struct), [[("x", Value.num 1)]][i]? = some input →
        writes[i]? = some (pipelineResponseKey (chainEnv echoConnector "t1").workflowID i,
          .json (.struct input)) ∧
        (oneInputWorld.redis.rejects
            (pipelineResponseKey (chainEnv echoConnector "t1").workflowID i) = false →
          mapGet (TriggerAsyncPipelineWorkflow (chainEnv echoConnector "t1") identityRequest
              oneInputWorld).2.redis.data
            (pipelineResponseKey (chainEnv echoConnector "t1").workflowID i) =
              some (.json (.struct input))) :=
  identity_pipeline (chainEnv echoConnector "t1") identityRequest oneInputWorld startComp
    identityRequest.pipeline.components "u1" [[("x", .num 1)]] (by decide) rfl rfl rfl
    (fun cache entry v h1 h2 => RenderInput_whole_token cache entry v h1 h2) (by decide)

/-! ## Scenario S2 -/

/-- C3 as stated fails: in scenario S2 (inputs `{"x":7}` and `{"x":8}`, echo connector) the
workflow does not complete; it returns an error, and no pipeline output is written. -/
theorem single_connector_counterexample :
    (TriggerAsyncPipelineWorkflow (chainEnv echoConnector "t1") singleConnectorRequest
      twoInputsWorld).1 ≠ .returned none ∧
    (TriggerAsyncPipelineWorkflow (chainEnv echoConnector "t1") singleConnectorRequest
      twoInputsWorld).2.sets.filter (fun e => isResponseKey e.1) = [] ∧
    mapGet (TriggerAsyncPipelineWorkflow (chainEnv echoConnector "t1") singleConnectorRequest
      twoInputsWorld).2.redis.data "async_pipeline_response:t1:0" = none := by
  decide

/-- C3, amended: in scenario S2 the workflow invokes the activity once, for `echo`, with two
input keys that hold `{"v":7}` and `{"v":8}`, which the activity returns; the component loop
completes with the end operator's entries `{"body":7}` and `{"body":8}`, whose bodies are
numbers and not records, so the workflow returns a decoding error and writes no pipeline
output. When the configuration of `k` is `{"v": "${start.body}"}` instead, the workflow
returns nil and the pipeline outputs are `{"x":7}` and `{"x":8}`. -/
theorem single_connector_outcome :
    ((TriggerAsyncPipelineWorkflow (chainEnv echoConnector "t1") singleConnectorRequest
        twoInputsWorld).2.calls.map (fun req => (req.name, req.inputBlobRedisKeys)) =
      [("echo", ["async_connector_blob:u1:0", "async_connector_blob:u1:1"])] ∧
    (TriggerAsyncPipelineWorkflow (chainEnv echoConnector "t1") singleConnectorRequest
        twoInputsWorld).2.sets =
      [("async_connector_blob:u1:0", .json (.struct [("v", .num 7)])),
       ("async_connector_blob:u1:1", .json (.struct [("v", .num 8)])),
       ("async_connector_blob:u2:0", .json (.struct [("v", .num 7)])),
       ("async_connector_blob:u2:1", .json (.struct [("v", .num 8)]))] ∧
    (∃ dataPoint f, runToOutputs (chainEnv echoConnector "t1") singleConnectorRequest
        twoInputsWorld = .ok (dataPoint, 2, f) ∧
      f.responseCompId = "end" ∧
      f.cache.map (fun item => mapGet item "end") =
        [some (.struct [("body", .num 7)]), some (.struct [("body", .num 8)])]) ∧
    (TriggerAsyncPipelineWorkflow (chainEnv echoConnector "t1") singleConnectorRequest
        twoInputsWorld).1 = .returned (some (.syntaxError "unexpected token"))) ∧
    ((TriggerAsyncPipelineWorkflow (chainEnv echoConnector "t1") wholeBodyRequest
        twoInputsWorld).1 = .returned none ∧
    (TriggerAsyncPipelineWorkflow (chainEnv echoConnector "t1") wholeBodyRequest
        twoInputsWorld).2.calls.map (fun req => (req.name, req.inputBlobRedisKeys)) =
      [("echo", ["async_connector_blob:u1:0", "async_connector_blob:u1:1"])] ∧
    (TriggerAsyncPipelineWorkflow (chainEnv echoConnector "t1") wholeBodyRequest
        twoInputsWorld).2.sets.filter (fun e => isResponseKey e.1) =
      [("async_pipeline_response:t1:0", .json (.struct [("x", .num 7)])),
       ("async_pipeline_response:t1:1", .json (.struct [("x", .num 8)]))]) :=
  ⟨⟨by decide, by decide, ⟨_, _, rfl, by decide, by decide⟩, by decide⟩,
    by decide, by decide, by decide⟩

/-! ## Defects -/

/-- C6 fails on the code: in scenario S2 with the configuration `{"v": "${start.body}"}` for
`k`, the activity is invoked with the input keys `async_connector_blob:u1:0` and
`async_connector_blob:u1:1` and returns the output keys of `u2`; the workflow returns nil,
the output keys are gone from the store and the two input keys are still there. -/
theorem input_blobs_not_deleted :
    (TriggerAsyncPipelineWorkflow (chainEnv echoConnector "t1") wholeBodyRequest
        twoInputsWorld).1 = .returned none ∧
    (TriggerAsyncPipelineWorkflow (chainEnv echoConnector "t1") wholeBodyRequest
        twoInputsWorld).2.calls.map (fun req => req.inputBlobRedisKeys) =
      [["async_connector_blob:u1:0", "async_connector_blob:u1:1"]] ∧
    mapGet (TriggerAsyncPipelineWorkflow (chainEnv echoConnector "t1") wholeBodyRequest
        twoInputsWorld).2.redis.data "async_connector_blob:u1:0" =
      some (.json (.struct [("v", .struct [("x", .num 7)])])) ∧
    mapGet (TriggerAsyncPipelineWorkflow (chainEnv echoConnector "t1") wholeBodyRequest
        twoInputsWorld).2.redis.data "async_connector_blob:u1:1" =
      some (.json (.struct [("v", .struct [("x", .num 8)])])) ∧
    mapGet (TriggerAsyncPipelineWorkflow (chainEnv echoConnector "t1") wholeBodyRequest
        twoInputsWorld).2.redis.data "async_connector_blob:u2:0" = none ∧
    mapGet (TriggerAsyncPipelineWorkflow (chainEnv echoConnector "t1") wholeBodyRequest
        twoInputsWorld).2.redis.data "async_connector_blob:u2:1" = none := by
  decide

/-- C7 fails on the code: with the end configuration `{"body": "${start.body.x}"}` and the
input `{"x":1}`, the body of the response is the number 1, the workflow returns the decoding
error and no data point was emitted; a run whose input key is absent returns its error after
one data point with status ERRORED. -/
theorem error_without_data_point :
    ((TriggerAsyncPipelineWorkflow (chainEnv echoConnector "t1") scalarBodyRequest
        oneInputWorld).1 = .returned (some (.syntaxError "unexpected token")) ∧
    (TriggerAsyncPipelineWorkflow (chainEnv echoConnector "t1") scalarBodyRequest
        oneInputWorld).2.dataPoints = []) ∧
    ((TriggerAsyncPipelineWorkflow (chainEnv echoConnector "t1") scalarBodyRequest
        (worldOf [] [])).1 = .returned (some (.redisNil "in0")) ∧
    (TriggerAsyncPipelineWorkflow (chainEnv echoConnector "t1") scalarBodyRequest
        (worldOf [] [])).2.dataPoints.map (fun dataPoint => dataPoint.status) = [.errored]) := by
  decide

/-- C10 fails on the code: on a store that refuses every write, `SetBlob` returns a key and
no error although the key is not in the store, and the workflow of scenario S1 returns nil
with one data point of status COMPLETED although the response key is not in the store. -/
theorem rejected_writes_unnoticed :
    ((SetBlob rejectingWorld [[("v", .num 1)]]).1 = .ok ["async_connector_blob:u1:0"] ∧
    mapGet (SetBlob rejectingWorld [[("v", .num 1)]]).2.redis.data
      "async_connector_blob:u1:0" = none) ∧
    ((TriggerAsyncPipelineWorkflow (chainEnv echoConnector "t1") identityRequest
        rejectingWorld).1 = .returned none ∧
    (TriggerAsyncPipelineWorkflow (chainEnv echoConnector "t1") identityRequest
        rejectingWorld).2.dataPoints.map (fun dataPoint => dataPoint.status) = [.completed] ∧
    (TriggerAsyncPipelineWorkflow (chainEnv echoConnector "t1") identityRequest
        rejectingWorld).2.sets =
      [("async_pipeline_response:t1:0", .json (.struct [("x", .num 1)]))] ∧
    mapGet (TriggerAsyncPipelineWorkflow (chainEnv echoConnector "t1") identityRequest
        rejectingWorld).2.redis.data "async_pipeline_response:t1:0" = none) := by
  decide

end Worker

/-! The theorems of the rename task. -/

namespace JsonOperator

open Worker

theorem moveKey_from (m : Struct) (fromKey toKey : String) (val : Value)
    (h : fromKey ≠ toKey) : mapGet (moveKey m fromKey toKey val) fromKey = none := by
  unfold moveKey
  rw [mapGet_mapSet_ne _ _ _ _ h]
  exact mapGet_mapDel_self m fromKey

theorem moveKey_to (m : Struct) (fromKey toKey : String) (val : Value) :
    mapGet (moveKey m fromKey toKey val) toKey = some val := by
  unfold moveKey
  exact mapGet_mapSet_self _ _ _

theorem moveKey_other (m : Struct) (fromKey toKey k : String) (val : Value)
    (h1 : k ≠ fromKey) (h2 : k ≠ toKey) :
    mapGet (moveKey m fromKey toKey val) k = mapGet m k := by
  unfold moveKey
  rw [mapGet_mapSet_ne _ _ _ _ h2, mapGet_mapDel_ne _ _ _ h1]

theorem renameFieldsBeforeOutput_eq (schema : Schema) (errorf : String → String)
    (input o mapping : Struct) (strategy : String)
    (hjson : mapGet input "json" = some (.struct o))
    (hfields : mapGet input "fields" = some (.list [.struct mapping]))
    (hstrategy : mapGet input "conflict-resolution" = some (.str strategy)) :
    renameFieldsBeforeOutput schema errorf input =
      match renameField strategy (.struct mapping) (.struct o) with
      | .error stop => .error stop
      | .ok renamed =>
        match validateJSON schema errorf renamed with
        | .error err =>
          .error (.err { cause := err, message := "Validation failed for renamed JSON object." })
        | .ok _ => .ok renamed := by
  simp only [renameFieldsBeforeOutput, hjson, hfields, hstrategy, asInterface, listValues,
    getStringValue, renameLoop]
  simp only [List.length_singleton, one_ne_zero, or_false, reduceCtorEq, if_false]
  cases renameField strategy (.struct mapping) (.struct o) <;> rfl

/-- The renaming of `renameFields` up to its validation, on a JSON object `o`, one mapping
from `from` to `to` and a conflict-resolution strategy. When `from` is present in `o`,
differs from `to`, and either the strategy is `overwrite`, or `to` is absent from `o` and
the strategy is `skip` or `error`, and the schema accepts the renamed object, `jsonValue` is
the renamed object: `from` is removed, `to` holds the former value of `from`, and every other
key keeps its value. When `to` is already present, `skip` leaves `o` unchanged (the schema
accepting it) and `error` fails with the field-conflict error. A mapping whose `from` key is
absent from `o` leaves `o` unchanged, the schema accepting it. -/
theorem renameFieldsBeforeOutput_single_mapping (schema : Schema) (errorf : String → String)
    (input o mapping : Struct) (fromKey toKey strategy : String)
    (hjson : mapGet input "json" = some (.struct o))
    (hfields : mapGet input "fields" = some (.list [.struct mapping]))
    (hstrategy : mapGet input "conflict-resolution" = some (.str strategy))
    (hfrom : mapGet mapping "from" = some (.str fromKey))
    (hto : mapGet mapping "to" = some (.str toKey)) :
    (∀ val, mapGet o fromKey = some val → fromKey ≠ toKey →
      (strategy = "overwrite" ∨
        (mapGet o toKey = none ∧ (strategy = "skip" ∨ strategy = "error"))) →
      schema.Validate (.struct (moveKey o fromKey toKey val)) = .ok [] →
        renameFieldsBeforeOutput schema errorf input =
          .ok (.struct (moveKey o fromKey toKey val)) ∧
        mapGet (moveKey o fromKey toKey val) fromKey = none ∧
        mapGet (moveKey o fromKey toKey val) toKey = some val ∧
        ∀ k, k ≠ fromKey → k ≠ toKey →
          mapGet (moveKey o fromKey toKey val) k = mapGet o k) ∧
    (∀ val other, mapGet o fromKey = some val → fromKey ≠ toKey →
      mapGet o toKey = some other → strategy = "skip" →
      schema.Validate (.struct o) = .ok [] →
        renameFieldsBeforeOutput schema errorf input = .ok (.struct o)) ∧
    (∀ val other, mapGet o fromKey = some val → fromKey ≠ toKey →
      mapGet o toKey = some other → strategy = "error" →
        renameFieldsBeforeOutput schema errorf input =
          .error (.err { cause := fieldConflict toKey, message := "Field conflict." })) ∧
    (mapGet o fromKey = none → schema.Validate (.struct o) = .ok [] →
      renameFieldsBeforeOutput schema errorf input = .ok (.struct o)) := by
  have heq := renameFieldsBeforeOutput_eq schema errorf input o mapping strategy hjson hfields
    hstrategy
  refine ⟨?_, ?_, ?_, ?_⟩
  · intro val hval hne hcase hvalid
    refine ⟨?_, moveKey_from o fromKey toKey val hne, moveKey_to o fromKey toKey val,
      fun k h1 h2 => moveKey_other o fromKey toKey k val h1 h2⟩
    rw [heq]
    rcases hcase with hs | ⟨habs, hs | hs⟩
    · simp [renameField, hfrom, hto, getStringValue, hval, hs, validateJSON, hvalid]
    · simp [renameField, hfrom, hto, getStringValue, hval, hs, habs, validateJSON, hvalid]
    · simp [renameField, hfrom, hto, getStringValue, hval, hs, habs, validateJSON, hvalid]
  · intro val other hval _ hother hs hvalid
    rw [heq]
    simp [renameField, hfrom, hto, getStringValue, hval, hs, hother, validateJSON, hvalid]
  · intro val other hval _ hother hs
    rw [heq]
    simp [renameField, hfrom, hto, getStringValue, hval, hs, hother]
  · intro habs hvalid
    rw [heq]
    simp [renameField, hfrom, hto, getStringValue, habs, validateJSON, hvalid]

end JsonOperator
